import Mathlib

/-!
# httpx: options contract and integration-test harness

A shallow embedding of the two source files of the repository:

* `cmd/integration-test/http.go` : the black-box regression cases run against the
  probing engine (`httpTestcases` and the `Execute` method of every case);
* `runner/options.go` : the `Options` record, `ParseOptions`, `validateOptions`,
  `configureResume` and `ShouldLoadResume`.

Go strings are embedded as Lean strings (sequences of runes); a Go `error` result
is an explicit outcome value; `gologger.Fatal` (which ends the process) is the
error side of `Except`.
-/

namespace Httpx

/-! ## Go standard library: `strings` -/

/-- Rune-wise prefix test (`strings.HasPrefix`). -/
def hasPrefixChars : List Char → List Char → Bool
  | _, [] => true
  | [], _ :: _ => false
  | c :: s, d :: p => c == d && hasPrefixChars s p

/-- Substring search: `sub` occurs somewhere in the first argument. -/
def containsChars : List Char → List Char → Bool
  | [], sub => sub.isEmpty
  | c :: s, sub => hasPrefixChars (c :: s) sub || containsChars s sub

/-- Go `strings.Contains(s, substr)`. -/
def strings.Contains (s substr : String) : Bool :=
  containsChars s.data substr.data

/-- The inner loop of Go `strings.EqualFold`:
`for r != sr && r < tr { r = unicode.SimpleFold(r) }`.
Every value the loop visits before it stops is below `tr`, so a run that
has not stopped after `tr + 1` steps never stops; the bound is the fuel. -/
def foldLoop (SimpleFold : Char → Char) (sr tr : Char) : Nat → Char → Char
  | 0, r => r
  | n + 1, r =>
    if r ≠ sr ∧ r < tr then foldLoop SimpleFold sr tr n (SimpleFold r) else r

/-- One step of Go `strings.EqualFold` on a pair of runes: equal runes match;
otherwise the smaller is `sr`, the larger `tr`; when `tr` is ASCII the pair
matches only as upper/lower case of one letter; otherwise `tr` has to be
reached from `sr` by `unicode.SimpleFold`. -/
def runeEqualFold (SimpleFold : Char → Char) (a b : Char) : Bool :=
  if a = b then true
  else
    let sr := if b < a then b else a
    let tr := if b < a then a else b
    if tr.toNat < 0x80 then
      decide ('A'.toNat ≤ sr.toNat ∧ sr.toNat ≤ 'Z'.toNat ∧ tr.toNat = sr.toNat + ('a'.toNat - 'A'.toNat))
    else
      foldLoop SimpleFold sr tr (tr.toNat + 1) (SimpleFold sr) == tr

/-- The rune loop of `strings.EqualFold`; when one string is exhausted the
other has to be exhausted too. -/
def equalFoldChars (SimpleFold : Char → Char) : List Char → List Char → Bool
  | [], [] => true
  | [], _ :: _ => false
  | _ :: _, [] => false
  | a :: s, b :: t => runeEqualFold SimpleFold a b && equalFoldChars SimpleFold s t

/-- Go `strings.EqualFold(s, t)`: equality under Unicode simple case folding.
The table behind `unicode.SimpleFold` is a parameter. -/
def strings.EqualFold (SimpleFold : Char → Char) (s t : String) : Bool :=
  equalFoldChars SimpleFold s.data t.data

/-! ## The integration-test harness (`cmd/integration-test/http.go`) -/

/-- What `testutils.RunHttpxAndGetResults` returns: the result lines and the
error value (`none` is Go `nil`). -/
structure RunOutput where
  results : List String
  err : Option String
deriving DecidableEq, Repr

/-- The non-nil errors an `Execute` method returns: the error of the engine
run handed back unchanged, `errIncorrectResultsCount(results)` and
`errIncorrectResult(got, expected)`. -/
inductive TestError where
  | runError (err : String)
  | errIncorrectResultsCount (results : List String)
  | errIncorrectResult (got expected : String)
deriving DecidableEq, Repr

/-- How a call of `Execute` ends: it returns `nil`, it returns an error, or
it panics (an index out of range on `results[0]`). -/
inductive Outcome where
  | nil
  | error (e : TestError)
  | panic
deriving DecidableEq, Repr

/-- What the test package takes from outside `http.go`: the engine runner
`testutils.RunHttpxAndGetResults(url, debug, extra...)`, the package variable
`debug`, and the fold table of the Go runtime. -/
structure Harness where
  RunHttpxAndGetResults : String → Bool → List String → RunOutput
  debug : Bool
  SimpleFold : Char → Char

/-- The same harness with an engine that answers every call with `out`. -/
def Harness.returning (H : Harness) (out : RunOutput) : Harness :=
  { H with RunHttpxAndGetResults := fun _ _ _ => out }

/-- A route registered on the `httprouter` of a test server. -/
structure Route where
  method : String
  path : String
  handler : String
deriving DecidableEq, Repr

/-- The receiver of `standardHttpGet.Execute`. -/
structure standardHttpGet where
  tls : Bool := false
  unsafe_ : Bool := false
  stdinPath : String := ""
  path : String := ""
  expectedOutput : String := ""
deriving DecidableEq, Repr

/-- The extra flags `standardHttpGet.Execute` builds (lines 51-57). -/
def standardHttpGet.extra (h : standardHttpGet) : List String :=
  (if h.unsafe_ then ["-unsafe"] else []) ++
  (if h.path ≠ "" then ["-path", "\"" ++ h.path ++ "\""] else [])

/-- The target URL `standardHttpGet.Execute` probes (lines 59-62). -/
def standardHttpGet.URL (h : standardHttpGet) (tsURL : String) : String :=
  if h.stdinPath ≠ "" then tsURL ++ h.stdinPath else tsURL

/-- Embedding of `standardHttpGet.Execute`; `tsURL` is `ts.URL`. -/
def standardHttpGet.Execute (h : standardHttpGet) (H : Harness) (tsURL : String) : Outcome :=
  let out := H.RunHttpxAndGetResults (h.URL tsURL) H.debug h.extra
  match out.err with
  | some err => .error (.runError err)
  | none =>
    if out.results.length ≠ 1 then .error (.errIncorrectResultsCount out.results)
    else
      match out.results with
      | [] => .panic
      | r0 :: _ =>
        if h.expectedOutput ≠ "" ∧ ¬ strings.EqualFold H.SimpleFold r0 h.expectedOutput then
          .error (.errIncorrectResult r0 h.expectedOutput)
        else .nil

/-- The string `issue276.Execute` expects (line 103). -/
def issue276.expected (tsURL : String) : String :=
  tsURL ++ "/redirect" ++ " [302] [Object moved]"

/-- Embedding of `issue276.Execute`. -/
def issue276.Execute (H : Harness) (tsURL : String) : Outcome :=
  let out := H.RunHttpxAndGetResults (tsURL ++ "/redirect") H.debug
    ["-status-code", "-title", "-no-color"]
  match out.err with
  | some err => .error (.runError err)
  | none =>
    if out.results.length ≠ 1 then .error (.errIncorrectResultsCount out.results)
    else
      match out.results with
      | [] => .panic
      | r0 :: _ =>
        if ¬ strings.EqualFold H.SimpleFold r0 (issue276.expected tsURL) then
          .error (.errIncorrectResult r0 (issue276.expected tsURL))
        else .nil

/-- The path and query `issue277.Execute` appends to the server URL (line 122). -/
def issue277.uripath : String := "/hpp/?pp=%22%3E%3Ch1%3Easdasd%3C%2Fh1%3E"

/-- The string `issue277.Execute` expects (line 134). -/
def issue277.expected (tsURL : String) : String := tsURL ++ issue277.uripath

/-- Embedding of `issue277.Execute`. -/
def issue277.Execute (H : Harness) (tsURL : String) : Outcome :=
  let out := H.RunHttpxAndGetResults (tsURL ++ issue277.uripath) H.debug []
  match out.err with
  | some err => .error (.runError err)
  | none =>
    if out.results.length ≠ 1 then .error (.errIncorrectResultsCount out.results)
    else
      match out.results with
      | [] => .panic
      | r0 :: _ =>
        if ¬ strings.EqualFold H.SimpleFold r0 (issue277.expected tsURL) then
          .error (.errIncorrectResult r0 (issue277.expected tsURL))
        else .nil

/-- The routes `issue303.Execute` registers (line 146): one handler, on
`GET /hpp`, which adds `Content-Encoding: gzip` and writes a plain body. -/
def issue303.routes : List Route := [⟨"GET", "/hpp", "gzip-header-plain-body"⟩]

/-- The target URL `issue303.Execute` hands to the engine (line 154). -/
def issue303.target (tsURL : String) : String := tsURL

/-- Embedding of `issue303.Execute`. -/
def issue303.Execute (H : Harness) (tsURL : String) : Outcome :=
  let out := H.RunHttpxAndGetResults (issue303.target tsURL) H.debug []
  match out.err with
  | some err => .error (.runError err)
  | none =>
    if out.results.length ≠ 1 then .error (.errIncorrectResultsCount out.results)
    else
      match out.results with
      | [] => .panic
      | r0 :: _ =>
        if ¬ strings.EqualFold H.SimpleFold r0 tsURL then
          .error (.errIncorrectResult r0 tsURL)
        else .nil

/-- The extra flags of `issue363.Execute` (line 183). -/
def issue363.extra : List String := ["-no-color", "-follow-redirects"]

/-- Embedding of `issue363.Execute`. -/
def issue363.Execute (H : Harness) (tsURL : String) : Outcome :=
  let out := H.RunHttpxAndGetResults (tsURL ++ "/redirect") H.debug issue363.extra
  match out.err with
  | some err => .error (.runError err)
  | none =>
    if out.results.length ≠ 1 then .error (.errIncorrectResultsCount out.results)
    else .nil

/-- The extra flags of `issue400.Execute` (line 206). -/
def issue400.extra : List String := ["-body 'a=b'", "-x POST", "-status-code"]

/-- Embedding of `issue400.Execute`. -/
def issue400.Execute (H : Harness) (tsURL : String) : Outcome :=
  let out := H.RunHttpxAndGetResults (tsURL ++ "/receive") H.debug issue400.extra
  match out.err with
  | some err => .error (.runError err)
  | none =>
    if out.results.length ≠ 1 then .error (.errIncorrectResultsCount out.results)
    else .nil

/-- The path of `issue414.Execute` (line 220). -/
def issue414.uripath : String := "/path"

/-- Embedding of `issue414.Execute`. -/
def issue414.Execute (H : Harness) (tsURL : String) : Outcome :=
  let out := H.RunHttpxAndGetResults tsURL H.debug ["-path '" ++ issue414.uripath ++ "'"]
  match out.err with
  | some err => .error (.runError err)
  | none =>
    if out.results.length ≠ 1 then .error (.errIncorrectResultsCount out.results)
    else
      match out.results with
      | [] => .panic
      | r0 :: _ =>
        if ¬ strings.EqualFold H.SimpleFold r0 (tsURL ++ issue414.uripath) then
          .error (.errIncorrectResult r0 (tsURL ++ issue414.uripath))
        else .nil

/-- Embedding of `issue433.Execute`: no check of the number of results; the
first result is indexed directly. -/
def issue433.Execute (H : Harness) (tsURL : String) : Outcome :=
  let out := H.RunHttpxAndGetResults (tsURL ++ "/index") H.debug ["-title", "-no-color"]
  match out.err with
  | some err => .error (.runError err)
  | none =>
    match out.results with
    | [] => .panic
    | r0 :: _ =>
      if strings.Contains r0 "\n" then .error (.errIncorrectResultsCount out.results)
      else if strings.Contains r0 "\r" then .error (.errIncorrectResultsCount out.results)
      else .nil

/-- The path of `issue480.Execute` (line 274). -/
def issue480.uriPath : String := "////////////////../../../../../../../../etc/passwd"

/-- The extra flags of `issue480.Execute` (line 281). -/
def issue480.extra : List String :=
  ["-path", "////////////////../../../../../../../../etc/passwd"]

/-- Embedding of `issue480.Execute`: no check of the number of results. -/
def issue480.Execute (H : Harness) (tsURL : String) : Outcome :=
  let out := H.RunHttpxAndGetResults tsURL H.debug issue480.extra
  match out.err with
  | some err => .error (.runError err)
  | none =>
    match out.results with
    | [] => .panic
    | r0 :: _ =>
      if ¬ strings.Contains r0 issue480.uriPath then
        .error (.errIncorrectResultsCount out.results)
      else .nil

/-- The implementations of `testutils.TestCase` in `http.go`. -/
inductive TestCase where
  | standardHttpGet (h : Httpx.standardHttpGet)
  | issue363
  | issue276
  | issue277
  | issue303
  | issue400
  | issue414
  | issue433
  | issue480
deriving DecidableEq, Repr

/-- Dispatch of the interface method `Execute`. -/
def TestCase.Execute (H : Harness) (tsURL : String) : TestCase → Outcome
  | .standardHttpGet h => h.Execute H tsURL
  | .issue363 => issue363.Execute H tsURL
  | .issue276 => issue276.Execute H tsURL
  | .issue277 => issue277.Execute H tsURL
  | .issue303 => issue303.Execute H tsURL
  | .issue400 => issue400.Execute H tsURL
  | .issue414 => issue414.Execute H tsURL
  | .issue433 => issue433.Execute H tsURL
  | .issue480 => issue480.Execute H tsURL

/-- The map `httpTestcases` (lines 14-28), as its list of entries. -/
def httpTestcases : List (String × TestCase) :=
  [ ("Standard HTTP GET Request", .standardHttpGet {}),
    ("Standard HTTPS GET Request", .standardHttpGet { tls := true }),
    ("Raw HTTP GET Request", .standardHttpGet { unsafe_ := true }),
    ("Raw request with non standard rfc path via stdin",
      .standardHttpGet { unsafe_ := true, stdinPath := "/%invalid" }),
    ("Raw request with non standard rfc path via cli flag",
      .standardHttpGet { unsafe_ := true, path := "/%invalid" }),
    ("Regression test for: https://github.com/sviivyao/httpx/issues/363", .issue363),
    ("Regression test for: https://github.com/sviivyao/httpx/issues/276", .issue276),
    ("Regression test for: https://github.com/sviivyao/httpx/issues/277", .issue277),
    ("Regression test for: https://github.com/sviivyao/httpx/issues/303", .issue303),
    ("Regression test for: https://github.com/sviivyao/httpx/issues/400", .issue400),
    ("Regression test for: https://github.com/sviivyao/httpx/issues/414", .issue414),
    ("Regression test for: https://github.com/sviivyao/httpx/issues/433", .issue433),
    ("Request URI to existing file - https://github.com/sviivyao/httpx/issues/480", .issue480) ]


/-- Static lookup of `httprouter`: the handler registered for exactly this
method and path, when there is one. -/
def Router.getValue (routes : List Route) (method path : String) : Option String :=
  (routes.find? fun r => r.method == method && r.path == path).map fun r => r.handler

/-- The path of the request line for a target on the test server whose base
URL is `tsURL`: what follows the base up to the query, and `/` when nothing
follows it. -/
def requestPath (tsURL target : String) : String :=
  let rest := (target.data.drop tsURL.data.length).takeWhile fun c => c != '?'
  if rest.isEmpty then "/" else String.mk rest

/-- Reading of "the result line carries a status code" after the output
format of the behavioural contract (`URL [status-code] [title]`): the line
holds a bracketed group of three decimal digits. -/
def carriesStatusCode : List Char → Bool
  | [] => false
  | c :: s =>
    (match c, s with
      | '[', d1 :: d2 :: d3 :: ']' :: _ => d1.isDigit && d2.isDigit && d3.isDigit
      | _, _ => false) || carriesStatusCode s

/-! ## Go standard library used by `runner/options.go` -/

/-- The scan behind `strings.Split` for a non-empty separator: `skip` counts
the runes of a separator just matched that are still to be passed over, `cur`
is the piece being read, reversed. -/
def splitChars (sep : List Char) : List Char → Nat → List Char → List (List Char)
  | [], _, cur => [cur.reverse]
  | _ :: s, skip + 1, cur => splitChars sep s skip cur
  | c :: s, 0, cur =>
    if hasPrefixChars (c :: s) sep then cur.reverse :: splitChars sep s (sep.length - 1) []
    else splitChars sep s 0 (c :: cur)

/-- Go `strings.Split(s, sep)` for a non-empty `sep`. -/
def strings.Split (s sep : String) : List String :=
  (splitChars sep.data s.data 0 []).map String.mk

/-- Lower-casing of one rune as Go `strings.ToLower` does it: an ASCII
capital moves down by 32, another ASCII rune stays, a rune outside ASCII
goes through `unicode.ToLower` (a parameter). -/
def runeToLower (ToLower : Char → Char) (c : Char) : Char :=
  if c.toNat < 0x80 then
    if 'A'.toNat ≤ c.toNat ∧ c.toNat ≤ 'Z'.toNat then Char.ofNat (c.toNat + 32) else c
  else ToLower c

/-- Go `strings.ToLower(s)`. -/
def strings.ToLower (ToLower : Char → Char) (s : String) : String :=
  String.mk (s.data.map (runeToLower ToLower))

/-- Go `strings.Join(elems, sep)`. -/
def strings.Join (elems : List String) (sep : String) : String :=
  sep.intercalate elems

/-! ## `runner/options.go` -/

/-- Constant `DefaultResumeFile`. -/
def DefaultResumeFile : String := "resume.cfg"

/-- Constant `DefaultOutputDirectory`. -/
def DefaultOutputDirectory : String := "output"

/-- Go `math.MaxInt32`. -/
def MaxInt32 : Int := 2147483647

/-- A compiled regular expression (`*regexp.Regexp`), known by its source. -/
structure Regexp where
  expr : String
deriving DecidableEq, Repr

/-- Modelled from the spec: the type `ResumeCfg` is declared outside the two
source files; the spec describes the checkpoint as "the processed-target
identity set or equivalent marker". The zero value `ResumeCfg{}` is the empty
one. -/
structure ResumeCfg where
  processed : List String := []
deriving DecidableEq, Repr

/-- The record `Options` (lines 124-234), field for field. A Go `int` is an
integer, a slice a list, a pointer an option (`none` is `nil`). -/
structure Options where
  CustomHeaders : List String := []
  CustomPorts : List String := []
  matchStatusCode : List Int := []
  matchContentLength : List Int := []
  filterStatusCode : List Int := []
  filterContentLength : List Int := []
  Output : String := ""
  StoreResponseDir : String := ""
  HTTPProxy : String := ""
  SocksProxy : String := ""
  InputFile : String := ""
  Methods : String := ""
  RequestURI : String := ""
  RequestURIs : String := ""
  requestURIs : List String := []
  OutputMatchStatusCode : String := ""
  OutputMatchContentLength : String := ""
  OutputFilterStatusCode : String := ""
  OutputFilterContentLength : String := ""
  InputRawRequest : String := ""
  rawRequest : String := ""
  RequestBody : String := ""
  OutputFilterString : String := ""
  OutputMatchString : String := ""
  OutputFilterRegex : String := ""
  OutputMatchRegex : String := ""
  Retries : Int := 0
  Threads : Int := 0
  Timeout : Int := 0
  filterRegex : Option Regexp := none
  matchRegex : Option Regexp := none
  VHost : Bool := false
  VHostInput : Bool := false
  Smuggling : Bool := false
  ExtractTitle : Bool := false
  StatusCode : Bool := false
  Location : Bool := false
  ContentLength : Bool := false
  FollowRedirects : Bool := false
  StoreResponse : Bool := false
  JSONOutput : Bool := false
  CSVOutput : Bool := false
  Silent : Bool := false
  Version : Bool := false
  Verbose : Bool := false
  NoColor : Bool := false
  OutputServerHeader : Bool := false
  OutputWebSocket : Bool := false
  responseInStdout : Bool := false
  chainInStdout : Bool := false
  FollowHostRedirects : Bool := false
  MaxRedirects : Int := 0
  OutputMethod : Bool := false
  TLSProbe : Bool := false
  CSPProbe : Bool := false
  OutputContentType : Bool := false
  OutputIP : Bool := false
  OutputCName : Bool := false
  Unsafe : Bool := false
  Debug : Bool := false
  DebugRequests : Bool := false
  DebugResponse : Bool := false
  Pipeline : Bool := false
  HTTP2Probe : Bool := false
  OutputCDN : Bool := false
  OutputResponseTime : Bool := false
  NoFallback : Bool := false
  NoFallbackScheme : Bool := false
  TechDetect : Bool := false
  TLSGrab : Bool := false
  protocol : String := ""
  ShowStatistics : Bool := false
  StatsInterval : Int := 0
  RandomAgent : Bool := false
  StoreChain : Bool := false
  Deny : List String := []
  Allow : List String := []
  MaxResponseBodySizeToSave : Int := 0
  MaxResponseBodySizeToRead : Int := 0
  OutputExtractRegex : String := ""
  RateLimit : Int := 0
  RateLimitMinute : Int := 0
  Probe : Bool := false
  Resume : Bool := false
  resumeCfg : Option ResumeCfg := none
  ExcludeCDN : Bool := false
  HostMaxErrors : Int := 0
  Stream : Bool := false
  SkipDedupe : Bool := false
  ProbeAllIPS : Bool := false
  Resolvers : List String := []
  Favicon : Bool := false
  OutputFilterFavicon : List String := []
  OutputMatchFavicon : List String := []
  LeaveDefaultPorts : Bool := false
  OutputLinesCount : Bool := false
  OutputMatchLinesCount : String := ""
  matchLinesCount : List Int := []
  OutputFilterLinesCount : String := ""
  filterLinesCount : List Int := []
  OutputWordsCount : Bool := false
  OutputMatchWordsCount : String := ""
  matchWordsCount : List Int := []
  OutputFilterWordsCount : String := ""
  filterWordsCount : List Int := []
  Hashes : String := ""
  Jarm : Bool := false
  Asn : Bool := false
  Domainsfinder : Bool := false

/-- The record the flag set of `ParseOptions` holds before the command line
is read: `&Options{}` with the default of every registered flag that is not
the zero value (lines 298-366). -/
def defaultOptions : Options :=
  { Threads := 50
    RateLimit := 150
    RandomAgent := true
    MaxRedirects := 10
    HostMaxErrors := 30
    Timeout := 5
    MaxResponseBodySizeToSave := MaxInt32
    MaxResponseBodySizeToRead := MaxInt32 }

/-- The levels of `gologger` that `options.go` writes to. -/
inductive Level where
  | debug
  | info
  | error
deriving DecidableEq, Repr

/-- One message handed to `gologger`. -/
structure LogEntry where
  level : Level
  msg : String
deriving DecidableEq, Repr

/-- How `options.go` ends the process: `gologger.Fatal` with its message, or
`os.Exit(code)`. -/
inductive Abort where
  | fatal (msg : String)
  | exit (code : Int)
deriving DecidableEq, Repr

/-- What `options.go` calls outside itself: the file system
(`fileutil.FileExists`, `fileutil.ReadFile`, `goconfig.Load`), the helpers of
the other packages of the repository (`fileutilz.FileNameIsGlob`,
`stringz.StringToSliceInt`), `regexp.Compile` and `unicode.ToLower`.
`goconfigLoad cfg file` gives the value `goconfig.Load(&cfg, file)` leaves in
`cfg` and the error it returns. -/
structure Env where
  FileExists : String → Bool
  ReadFile : String → Except String (List String)
  goconfigLoad : Option ResumeCfg → String → Option ResumeCfg × Option String
  FileNameIsGlob : String → Bool
  StringToSliceInt : String → Except String (List Int)
  regexpCompile : String → Except String Regexp
  ToLower : Char → Char

/-- Modelled from the spec: `slice.StringSliceContains` is declared in another
package of the repository; by its name and its use on the "fixed set of
digest/fingerprint algorithms" it tells whether the string is an element of
the slice. -/
def StringSliceContains (slice : List String) (item : String) : Bool :=
  slice.contains item

/-- The state `validateOptions` works on: the record and the messages written
so far. -/
structure Validated where
  options : Options
  log : List LogEntry := []

/-- Lines 396-402 of `validateOptions`: the input files have to exist. -/
def validateOptions.inputFiles (env : Env) (options : Options) : Except Abort Unit :=
  if options.InputFile ≠ "" ∧ ¬ env.FileNameIsGlob options.InputFile ∧
      ¬ env.FileExists options.InputFile then
    .error (.fatal ("File " ++ options.InputFile ++ " does not exist.\n"))
  else if options.InputRawRequest ≠ "" ∧ ¬ env.FileExists options.InputRawRequest then
    .error (.fatal ("File " ++ options.InputRawRequest ++ " does not exist.\n"))
  else .ok ()

/-- The message of the output-format check (line 406). -/
def multiOutputMsg : String :=
  "Results can only be displayed in one format: 'JSON' or 'CSV'\n"

/-- Lines 404-407 of `validateOptions`: the output-format check. -/
def validateOptions.outputFormat (options : Options) : Except Abort Unit :=
  let multiOutput := options.CSVOutput && options.JSONOutput
  if multiOutput then .error (.fatal multiOutputMsg) else .ok ()

/-- One `stringz.StringToSliceInt` call of lines 410-443 with its fatal
message. -/
def parseIntList (env : Env) (what value : String) : Except Abort (List Int) :=
  match env.StringToSliceInt value with
  | .ok xs => .ok xs
  | .error err => .error (.fatal ("Invalid value for " ++ what ++ " option: " ++ err ++ "\n"))

/-- One `regexp.Compile` call of lines 422-431: skipped for an empty
expression, fatal when the expression does not compile. -/
def compileRegex (env : Env) (what value : String) (old : Option Regexp) :
    Except Abort (Option Regexp) :=
  if value ≠ "" then
    match env.regexpCompile value with
    | .ok re => .ok (some re)
    | .error err => .error (.fatal ("Invalid value for " ++ what ++ " option: " ++ err ++ "\n"))
  else .ok old

/-- Lines 409-443 of `validateOptions`: the derived lists and regular
expressions, in the order of the source. -/
def validateOptions.matchers (env : Env) (options : Options) : Except Abort Options := do
  let matchStatusCode ← parseIntList env "match status code" options.OutputMatchStatusCode
  let matchContentLength ← parseIntList env "match content length" options.OutputMatchContentLength
  let filterStatusCode ← parseIntList env "filter status code" options.OutputFilterStatusCode
  let filterContentLength ← parseIntList env "filter content length" options.OutputFilterContentLength
  let filterRegex ← compileRegex env "regex filter" options.OutputFilterRegex options.filterRegex
  let matchRegex ← compileRegex env "match regex" options.OutputMatchRegex options.matchRegex
  let matchLinesCount ← parseIntList env "match lines count" options.OutputMatchLinesCount
  let matchWordsCount ← parseIntList env "match words count" options.OutputMatchWordsCount
  let filterLinesCount ← parseIntList env "filter lines count" options.OutputFilterLinesCount
  let filterWordsCount ← parseIntList env "filter words count" options.OutputFilterWordsCount
  return { options with
    matchStatusCode := matchStatusCode
    matchContentLength := matchContentLength
    filterStatusCode := filterStatusCode
    filterContentLength := filterContentLength
    filterRegex := filterRegex
    matchRegex := matchRegex
    matchLinesCount := matchLinesCount
    matchWordsCount := matchWordsCount
    filterLinesCount := filterLinesCount
    filterWordsCount := filterWordsCount }

/-- The loop of lines 445-458: a resolver that names an existing file is
replaced by the lines of the file, any other is kept. -/
def validateOptions.readResolvers (env : Env) : List String → List String →
    Except Abort (List String)
  | [], resolvers => .ok resolvers
  | resolver :: rest, resolvers =>
    if env.FileExists resolver then
      match env.ReadFile resolver with
      | .error err =>
        .error (.fatal ("Couldn't process resolver file \"" ++ resolver ++ "\": " ++ err ++ "\n"))
      | .ok chFile => validateOptions.readResolvers env rest (resolvers ++ chFile)
    else validateOptions.readResolvers env rest (resolvers ++ [resolver])

/-- Lines 445-462 of `validateOptions`. -/
def validateOptions.resolvers (env : Env) (v : Validated) : Except Abort Validated :=
  match validateOptions.readResolvers env v.options.Resolvers [] with
  | .error e => .error e
  | .ok resolvers =>
    .ok { options := { v.options with Resolvers := resolvers }
          log := v.log ++
            (if resolvers.length > 0 then
              [⟨.debug, "Using resolvers: " ++ strings.Join resolvers "," ++ "\n"⟩]
            else []) }

/-- Lines 464-471 of `validateOptions`. -/
def validateOptions.storeResponse (v : Validated) : Validated :=
  let v1 : Validated :=
    if v.options.StoreResponse ∧ v.options.StoreResponseDir = "" then
      { options := { v.options with StoreResponseDir := DefaultOutputDirectory }
        log := v.log ++ [⟨.debug, "Store response directory not specified, using \"" ++
          DefaultOutputDirectory ++ "\"\n"⟩] }
    else v
  if v1.options.StoreResponseDir ≠ "" ∧ ¬ v1.options.StoreResponse then
    { options := { v1.options with StoreResponse := true }
      log := v1.log ++
        [⟨.debug, "Store response directory specified, enabling \"sr\" flag automatically\n"⟩] }
  else v1

/-- Lines 473-476 of `validateOptions`. -/
def validateOptions.favicon (v : Validated) : Validated :=
  if v.options.Favicon then
    { options := { v.options with RequestURIs := "/favicon.ico" }
      log := v.log ++
        [⟨.debug, "Setting single path to \"favicon.ico\" and ignoring multiple paths settings\n"⟩] }
  else v

/-- The hash names of line 480. -/
def supportedHashes : List String := ["md5", "sha1", "sha256", "sha512", "mmh3", "simhash"]

/-- Lines 478-484 of `validateOptions`: one error message for every entry of
`Hashes` that is not a supported name. -/
def validateOptions.hashes (env : Env) (v : Validated) : Validated :=
  if v.options.Hashes ≠ "" then
    { v with log := v.log ++ (strings.Split v.options.Hashes ",").filterMap fun hashType =>
        if ¬ StringSliceContains supportedHashes (strings.ToLower env.ToLower hashType) then
          some ⟨.error, "Unsupported hash type: " ++ hashType ++ "\n"⟩
        else none }
  else v

/-- Embedding of `Options.validateOptions` (lines 395-485): the steps of the
source in their order; `gologger.Fatal` ends the run with its message. -/
def validateOptions (env : Env) (options : Options) : Except Abort Validated := do
  validateOptions.inputFiles env options
  validateOptions.outputFormat options
  let options ← validateOptions.matchers env options
  let v ← validateOptions.resolvers env { options := options }
  let v := validateOptions.storeResponse v
  let v := validateOptions.favicon v
  return validateOptions.hashes env v

/-- The result of `configureResume`: the record it leaves, the error it
returns, and the files it asked `goconfig.Load` to read. -/
structure ResumeOutcome where
  options : Options
  err : Option String
  loaded : List String

/-- Embedding of `Options.configureResume` (lines 504-511). -/
def configureResume (env : Env) (options : Options) : ResumeOutcome :=
  let options := { options with resumeCfg := some ({} : ResumeCfg) }
  if options.Resume ∧ env.FileExists DefaultResumeFile then
    let r := env.goconfigLoad options.resumeCfg DefaultResumeFile
    { options := { options with resumeCfg := r.1 }, err := r.2, loaded := [DefaultResumeFile] }
  else
    { options := options, err := none, loaded := [] }

/-- Embedding of `Options.ShouldLoadResume` (lines 514-516). -/
def ShouldLoadResume (env : Env) (options : Options) : Bool :=
  options.Resume && env.FileExists DefaultResumeFile

/-- Embedding of `Options.ShouldSaveResume` (lines 519-521). -/
def ShouldSaveResume (_options : Options) : Bool := true

/-- Embedding of `ParseOptions` (lines 237-393). `cli` is what
`flagSet.Parse()` does to the registered defaults for the command line and
the configuration file at hand; `configureOutput` and `showBanner` only touch the logger and the
screen. -/
def ParseOptions (env : Env) (cli : Options → Options) : Except Abort Validated := do
  let options := cli defaultOptions
  let options := if options.StatsInterval ≠ 0 then { options with ShowStatistics := true } else options
  let r := configureResume env options
  match r.err with
  | some err => throw (.fatal (err ++ "\n"))
  | none =>
    if r.options.Version then throw (.exit 0)
    else validateOptions env r.options

/-- The record `scanOptions` (lines 31-76), field for field. -/
structure scanOptions where
  Methods : List String := []
  StoreResponseDirectory : String := ""
  RequestURI : String := ""
  RequestBody : String := ""
  VHost : Bool := false
  OutputTitle : Bool := false
  OutputStatusCode : Bool := false
  OutputLocation : Bool := false
  OutputContentLength : Bool := false
  StoreResponse : Bool := false
  OutputServerHeader : Bool := false
  OutputWebSocket : Bool := false
  OutputWithNoColor : Bool := false
  OutputMethod : Bool := false
  ResponseInStdout : Bool := false
  ChainInStdout : Bool := false
  TLSProbe : Bool := false
  CSPProbe : Bool := false
  VHostInput : Bool := false
  OutputContentType : Bool := false
  Unsafe : Bool := false
  Pipeline : Bool := false
  HTTP2Probe : Bool := false
  OutputIP : Bool := false
  OutputCName : Bool := false
  OutputCDN : Bool := false
  OutputResponseTime : Bool := false
  PreferHTTPS : Bool := false
  NoFallback : Bool := false
  NoFallbackScheme : Bool := false
  TechDetect : Bool := false
  StoreChain : Bool := false
  MaxResponseBodySizeToSave : Int := 0
  MaxResponseBodySizeToRead : Int := 0
  OutputExtractRegex : String := ""
  extractRegex : Option Regexp := none
  ExcludeCDN : Bool := false
  HostMaxErrors : Int := 0
  ProbeAllIPS : Bool := false
  Favicon : Bool := false
  LeaveDefaultPorts : Bool := false
  OutputLinesCount : Bool := false
  OutputWordsCount : Bool := false
  Hashes : String := ""
deriving DecidableEq, Repr

/-- Embedding of `scanOptions.Clone` (lines 78-121): a new record with the
fields the composite literal of the source names; a field the literal does
not name has the zero value of its type. -/
def scanOptions.Clone (s : scanOptions) : scanOptions :=
  { Methods := s.Methods
    StoreResponseDirectory := s.StoreResponseDirectory
    RequestURI := s.RequestURI
    RequestBody := s.RequestBody
    VHost := s.VHost
    OutputTitle := s.OutputTitle
    OutputStatusCode := s.OutputStatusCode
    OutputLocation := s.OutputLocation
    OutputContentLength := s.OutputContentLength
    StoreResponse := s.StoreResponse
    OutputServerHeader := s.OutputServerHeader
    OutputWebSocket := s.OutputWebSocket
    OutputWithNoColor := s.OutputWithNoColor
    OutputMethod := s.OutputMethod
    ResponseInStdout := s.ResponseInStdout
    ChainInStdout := s.ChainInStdout
    TLSProbe := s.TLSProbe
    CSPProbe := s.CSPProbe
    OutputContentType := s.OutputContentType
    Unsafe := s.Unsafe
    Pipeline := s.Pipeline
    HTTP2Probe := s.HTTP2Probe
    OutputIP := s.OutputIP
    OutputCName := s.OutputCName
    OutputCDN := s.OutputCDN
    OutputResponseTime := s.OutputResponseTime
    PreferHTTPS := s.PreferHTTPS
    NoFallback := s.NoFallback
    NoFallbackScheme := s.NoFallbackScheme
    TechDetect := s.TechDetect
    StoreChain := s.StoreChain
    OutputExtractRegex := s.OutputExtractRegex
    MaxResponseBodySizeToSave := s.MaxResponseBodySizeToSave
    MaxResponseBodySizeToRead := s.MaxResponseBodySizeToRead
    HostMaxErrors := s.HostMaxErrors
    Favicon := s.Favicon
    LeaveDefaultPorts := s.LeaveDefaultPorts
    OutputLinesCount := s.OutputLinesCount
    OutputWordsCount := s.OutputWordsCount
    Hashes := s.Hashes }

/-- The registration of an integer flag (`flagSet.IntVarP`): long name, short
name, default value and help text. -/
structure IntFlag where
  name : String
  short : String
  defValue : Int
  usage : String
deriving DecidableEq, Repr

/-- The registration of `-stats-interval` (line 354). -/
def statsIntervalFlag : IntFlag :=
  { name := "stats-interval"
    short := "si"
    defValue := 0
    usage := "number of seconds to wait between showing a statistics update (default: 5)" }

/-- A file system that holds `resume.cfg` and nothing else, with a loader that
reads one processed target from it; no name is a glob, every list of integers
parses to the empty list and every expression compiles. -/
def resumeOnlyEnv : Env where
  FileExists := fun file => file == "resume.cfg"
  ReadFile := fun _ => .ok []
  goconfigLoad := fun _ _ => (some { processed := ["http://127.0.0.1:8080"] }, none)
  FileNameIsGlob := fun _ => false
  StringToSliceInt := fun _ => .ok []
  regexpCompile := fun expr => .ok ⟨expr⟩
  ToLower := fun c => c

/-- The record `ParseOptions` holds after lines 369-373: the flags parsed
over the registered defaults, then `ShowStatistics` turned on for a non-zero
`StatsInterval`. -/
def ParseOptions.parsed (cli : Options → Options) : Options :=
  let options := cli defaultOptions
  if options.StatsInterval ≠ 0 then { options with ShowStatistics := true } else options

/-- An environment whose integer-list parser tells the strings apart: the
string `bad` does not parse, any other string parses to the list of its
length. No file exists. -/
def lengthEnv : Env where
  FileExists := fun _ => false
  ReadFile := fun _ => .ok []
  goconfigLoad := fun cfg _ => (cfg, none)
  FileNameIsGlob := fun _ => false
  StringToSliceInt := fun s => if s = "bad" then .error "bad" else .ok [(s.length : Int)]
  regexpCompile := fun expr => .ok ⟨expr⟩
  ToLower := fun c => c

/-- A file system that holds `resume.cfg` with content `goconfig.Load`
rejects. -/
def corruptResumeEnv : Env where
  FileExists := fun file => file == "resume.cfg"
  ReadFile := fun _ => .ok []
  goconfigLoad := fun cfg _ => (cfg, some "unexpected end of JSON input")
  FileNameIsGlob := fun _ => false
  StringToSliceInt := fun _ => .ok []
  regexpCompile := fun expr => .ok ⟨expr⟩
  ToLower := fun c => c

/-! ## The redirect follower and the probe of one target, from the spec -/

/-- Modelled from the spec: what the redirect follower reads of a response,
its status code and its `Location` header (the engine's HTTP client is not
part of the two source files). -/
structure HopResponse where
  status : Nat
  location : Option String
deriving DecidableEq, Repr

/-- Modelled from the spec: the network as the engine meets it, the response a
request for a URL gets and the resolution of a `Location` value against the
current URL ("resolve `Location` against the current URL", section 4.5). -/
structure Web where
  fetch : String → HopResponse
  resolve : String → String → String

/-- Modelled from the spec: the follower is "invoked after any response
carrying a 3xx status with a `Location` header"; the URL such a response
points to, resolved against the current URL. -/
def RedirectFollower.next (web : Web) (cur : String) (resp : HopResponse) : Option String :=
  if 300 ≤ resp.status ∧ resp.status < 400 then resp.location.map (web.resolve cur) else none

/-- Modelled from the spec: the algorithm of section 4.5. `chain` is the
visited set, starting with the original URL; `hops` the hops made so far. On
each hop the `Location` is resolved; a URL already visited ends the walk with
the chain as it is; so does a hop count above `maxHops`; otherwise the
follow-up request is issued, the URL appended, and the walk repeats. The
first argument is the fuel of the recursion. -/
def RedirectFollower.follow (web : Web) (maxHops : Nat) :
    Nat → String → HopResponse → List String → Nat → Option (List String × HopResponse)
  | 0, _, _, _, _ => none
  | fuel + 1, cur, resp, chain, hops =>
    match RedirectFollower.next web cur resp with
    | none => some (chain, resp)
    | some next =>
      if next ∈ chain then some (chain, resp)
      else if hops + 1 > maxHops then some (chain, resp)
      else RedirectFollower.follow web maxHops fuel next (web.fetch next) (chain ++ [next]) (hops + 1)

/-- Modelled from the spec: the `ProbeResult` of section 3, reduced to the
fields the redirect follower decides. -/
structure ProbeResult where
  target : String
  finalURL : String
  statusCode : Nat
  chain : List String
deriving DecidableEq, Repr

/-- Modelled from the spec: the probe of one target. The target is requested;
when redirect following is enabled (`-follow-redirects` or
`-follow-host-redirects`, lines 335-337 of `options.go`) the follower walks
the chain with `MaxRedirects` as the hop limit, and "the final response in
the chain becomes the reported result". The fuel handed to the follower is
one more than the hop limit. -/
def Engine.probe (web : Web) (options : Options) (target : String) : Option ProbeResult :=
  let first := web.fetch target
  if options.FollowRedirects || options.FollowHostRedirects then
    let maxHops := options.MaxRedirects.toNat
    (RedirectFollower.follow web maxHops (maxHops + 1) target first [target] 0).map fun r =>
      { target := target, finalURL := r.1.getLastD target, statusCode := r.2.status, chain := r.1 }
  else
    some { target := target, finalURL := target, statusCode := first.status, chain := [target] }

/-- Modelled from the spec: a run over a list of targets emits the result of
every probe ("produced exactly once per target that reaches a terminal
state"); `none` when a probe does not end. -/
def Engine.run (web : Web) (options : Options) : List String → Option (List ProbeResult)
  | [] => some []
  | target :: targets =>
    match Engine.probe web options target, Engine.run web options targets with
    | some r, some rs => some (r :: rs)
    | _, _ => none

/-! ## Lemmas on the string functions -/

theorem hasPrefixChars_iff (s p : List Char) : hasPrefixChars s p = true ↔ p <+: s := by
  induction s generalizing p with
  | nil => cases p <;> simp [hasPrefixChars]
  | cons c s ih =>
    cases p with
    | nil => simp [hasPrefixChars]
    | cons d p =>
      simp only [hasPrefixChars, Bool.and_eq_true, beq_iff_eq, ih, List.cons_prefix_cons]
      constructor
      · rintro ⟨h1, h2⟩; exact ⟨h1.symm, h2⟩
      · rintro ⟨h1, h2⟩; exact ⟨h1.symm, h2⟩

theorem containsChars_iff (s sub : List Char) : containsChars s sub = true ↔ sub <:+: s := by
  induction s with
  | nil => cases sub <;> simp [containsChars]
  | cons c s ih =>
    simp only [containsChars, Bool.or_eq_true, hasPrefixChars_iff, ih, List.infix_cons_iff]

theorem containsChars_singleton (s : List Char) (c : Char) :
    containsChars s [c] = true ↔ c ∈ s := by
  induction s with
  | nil => simp [containsChars]
  | cons x s ih =>
    have hnil : hasPrefixChars s [] = true := by cases s <;> rfl
    simp only [containsChars, hasPrefixChars, hnil, Bool.and_true, Bool.or_eq_true, beq_iff_eq,
      ih, List.mem_cons]
    constructor
    · rintro (h | h)
      · exact Or.inl h.symm
      · exact Or.inr h
    · rintro (h | h)
      · exact Or.inl h.symm
      · exact Or.inr h

theorem runeEqualFold_self (sf : Char → Char) (a : Char) : runeEqualFold sf a a = true := by
  simp [runeEqualFold]

theorem equalFoldChars_self (sf : Char → Char) (s : List Char) : equalFoldChars sf s s = true := by
  induction s with
  | nil => rfl
  | cons a s ih => simp [equalFoldChars, runeEqualFold_self, ih]

theorem equalFoldChars_length (sf : Char → Char) (s t : List Char)
    (h : equalFoldChars sf s t = true) : s.length = t.length := by
  induction s generalizing t with
  | nil => cases t <;> simp_all [equalFoldChars]
  | cons a s ih =>
    cases t with
    | nil => simp [equalFoldChars] at h
    | cons b t =>
      simp only [equalFoldChars, Bool.and_eq_true] at h
      simp [ih t h.2]

theorem char_eq_iff_toNat (a b : Char) : a = b ↔ a.toNat = b.toNat := by
  constructor
  · intro h; rw [h]
  · intro h
    apply Char.ext
    apply UInt32.ext
    simpa [Char.toNat, UInt32.toNat] using h

theorem toNat_ofNat_small (n : Nat) (h : n < 0xd800) : (Char.ofNat n).toNat = n := by
  have hv : n.isValidChar := Or.inl h
  simp only [Char.ofNat, hv, dite_true, Char.ofNatAux, Char.toNat]
  simp [UInt32.toNat]

theorem runeToLower_toNat_ascii (tl : Char → Char) (c : Char) (hc : c.toNat < 0x80) :
    (runeToLower tl c).toNat = if 65 ≤ c.toNat ∧ c.toNat ≤ 90 then c.toNat + 32 else c.toNat := by
  have hA : 'A'.toNat = 65 := rfl
  have hZ : 'Z'.toNat = 90 := rfl
  simp only [runeToLower, hc, if_true, hA, hZ]
  split
  · exact toNat_ofNat_small _ (by omega)
  · rfl

theorem runeEqualFold_ascii (sf tl : Char → Char) (a b : Char)
    (ha : a.toNat < 0x80) (hb : b.toNat < 0x80) :
    runeEqualFold sf a b = true ↔ runeToLower tl a = runeToLower tl b := by
  have hA : 'A'.toNat = 65 := rfl
  have hZ : 'Z'.toNat = 90 := rfl
  have ha' : 'a'.toNat = 97 := rfl
  rw [char_eq_iff_toNat, runeToLower_toNat_ascii tl a ha, runeToLower_toNat_ascii tl b hb]
  by_cases hab : a = b
  · subst hab
    simp [runeEqualFold]
  · have hne : a.toNat ≠ b.toNat := fun h => hab ((char_eq_iff_toNat a b).2 h)
    have hlt : (b < a) ↔ b.toNat < a.toNat := Iff.rfl
    simp only [runeEqualFold, hab, if_false, hA, hZ, ha']
    by_cases hba : b < a
    · have hba' := hlt.1 hba
      simp only [hba, if_true, ha, decide_eq_true_eq]
      constructor
      · rintro ⟨h1, h2, h3⟩
        rw [if_neg (by omega), if_pos (by omega)]
        omega
      · intro h
        split_ifs at h <;> omega
    · have hba' : ¬ b.toNat < a.toNat := fun h => hba (hlt.2 h)
      simp only [hba, if_false, hb, if_true, decide_eq_true_eq]
      constructor
      · rintro ⟨h1, h2, h3⟩
        rw [if_pos (by omega), if_neg (by omega)]
        omega
      · intro h
        split_ifs at h <;> omega

theorem equalFoldChars_ascii (sf tl : Char → Char) (s t : List Char)
    (hs : ∀ c ∈ s, c.toNat < 0x80) (ht : ∀ c ∈ t, c.toNat < 0x80) :
    equalFoldChars sf s t = true ↔ s.map (runeToLower tl) = t.map (runeToLower tl) := by
  induction s generalizing t with
  | nil => cases t <;> simp [equalFoldChars]
  | cons a s ih =>
    cases t with
    | nil => simp [equalFoldChars]
    | cons b t =>
      simp only [equalFoldChars, Bool.and_eq_true, List.map_cons, List.cons.injEq]
      rw [runeEqualFold_ascii sf tl a b (hs a (by simp)) (ht b (by simp)),
        ih t (fun c hc => hs c (by simp [hc])) (fun c hc => ht c (by simp [hc]))]

/-! ## The regression cases of `http.go` -/

/-- Every case of `httpTestcases` other than `issue433` and `issue480` answers
a run that returns no error and a number of lines other than one with an
error. -/
theorem count_checked_cases (c : TestCase) (hc : c ≠ .issue433 ∧ c ≠ .issue480)
    (H : Harness) (tsURL : String) (results : List String) (hlen : results.length ≠ 1) :
    ∃ e, c.Execute (H.returning ⟨results, none⟩) tsURL = .error e := by
  cases c <;>
    simp_all [TestCase.Execute, standardHttpGet.Execute, issue363.Execute, issue276.Execute,
      issue277.Execute, issue303.Execute, issue400.Execute, issue414.Execute, Harness.returning]

/-- C1: the one-result contract is not enforced by every registered case.
`issue433` and `issue480` are registered in `httpTestcases`, and for a run
that returns no error, `issue433.Execute` and `issue480.Execute` return nil on
two result lines and panic (index out of range) on none. -/
theorem issue433_issue480_skip_count_check (H : Harness) (tsURL : String) :
    TestCase.issue433 ∈ httpTestcases.map Prod.snd ∧
    TestCase.issue480 ∈ httpTestcases.map Prod.snd ∧
    TestCase.Execute
      (H.returning ⟨["http://127.0.0.1:8080/index [Project Discovery - Httpx>]",
        "http://127.0.0.1:8080/index"], none⟩) tsURL .issue433 = .nil ∧
    TestCase.Execute (H.returning ⟨[], none⟩) tsURL .issue433 = .panic ∧
    TestCase.Execute
      (H.returning ⟨["http://127.0.0.1:8080////////////////../../../../../../../../etc/passwd",
        "http://127.0.0.1:8080"], none⟩) tsURL .issue480 = .nil ∧
    TestCase.Execute (H.returning ⟨[], none⟩) tsURL .issue480 = .panic := by
  refine ⟨by decide, by decide, ?_, rfl, ?_, rfl⟩
  · simp only [TestCase.Execute, issue433.Execute, Harness.returning]
    rw [if_neg (by decide), if_neg (by decide)]
  · simp only [TestCase.Execute, issue480.Execute, Harness.returning]
    rw [if_neg (by decide)]

/-- C3, as stated, fails: `issue276.Execute` returns nil for a single result
that differs from the expected string in letter case. -/
theorem issue276_accepts_other_letter_case :
    (∀ H : Harness, issue276.Execute
      (H.returning ⟨["HTTP://127.0.0.1:8080/REDIRECT [302] [OBJECT MOVED]"], none⟩)
      "http://127.0.0.1:8080" = .nil) ∧
    "HTTP://127.0.0.1:8080/REDIRECT [302] [OBJECT MOVED]" ≠
      issue276.expected "http://127.0.0.1:8080" := by
  refine ⟨fun H => ?_, by decide⟩
  simp only [issue276.Execute, Harness.returning]
  have h : ∀ sf, strings.EqualFold sf "HTTP://127.0.0.1:8080/REDIRECT [302] [OBJECT MOVED]"
      (issue276.expected "http://127.0.0.1:8080") = true := by
    intro sf
    simp [strings.EqualFold, issue276.expected, equalFoldChars, runeEqualFold]
  simp [h]

/-- C3, amended: `issue276.Execute` and `issue277.Execute` return nil exactly
when the run returns no error and one result that `strings.EqualFold` matches
with the expected string (equality up to Unicode case folding); a result that
is the expected string itself is matched, a matched result has as many runes
as the expected string, and on ASCII strings the match is equality after
`strings.ToLower`. -/
theorem issue276_issue277_nil_iff_equalFold (H : Harness) (tsURL : String) :
    (issue276.Execute H tsURL = .nil ↔
      ∃ r0, H.RunHttpxAndGetResults (tsURL ++ "/redirect") H.debug
          ["-status-code", "-title", "-no-color"] = ⟨[r0], none⟩ ∧
        strings.EqualFold H.SimpleFold r0
          (tsURL ++ "/redirect" ++ " [302] [Object moved]") = true) ∧
    (issue277.Execute H tsURL = .nil ↔
      ∃ r0, H.RunHttpxAndGetResults (tsURL ++ "/hpp/?pp=%22%3E%3Ch1%3Easdasd%3C%2Fh1%3E")
          H.debug [] = ⟨[r0], none⟩ ∧
        strings.EqualFold H.SimpleFold r0
          (tsURL ++ "/hpp/?pp=%22%3E%3Ch1%3Easdasd%3C%2Fh1%3E") = true) ∧
    (∀ s : String, strings.EqualFold H.SimpleFold s s = true) ∧
    (∀ s t : String, strings.EqualFold H.SimpleFold s t = true → s.length = t.length) ∧
    (∀ (ToLower : Char → Char) (s t : String),
      (∀ c ∈ s.data, c.toNat < 0x80) → (∀ c ∈ t.data, c.toNat < 0x80) →
      (strings.EqualFold H.SimpleFold s t = true ↔
        strings.ToLower ToLower s = strings.ToLower ToLower t)) := by
  refine ⟨?_, ?_, fun s => equalFoldChars_self _ _, fun s t h => equalFoldChars_length _ _ _ h,
    fun tl s t hs ht => ?_⟩
  rotate_right
  · simp only [strings.EqualFold, strings.ToLower]
    rw [equalFoldChars_ascii H.SimpleFold tl _ _ hs ht]
    constructor
    · intro h; rw [h]
    · intro h; exact congrArg String.data h
  · simp only [issue276.Execute, issue276.expected]
    generalize H.RunHttpxAndGetResults (tsURL ++ "/redirect") H.debug
      ["-status-code", "-title", "-no-color"] = out
    obtain ⟨results, err⟩ := out
    cases err with
    | some e => simp
    | none =>
      match results with
      | [] => simp
      | [r0] => simp
      | _ :: _ :: _ => simp
  · simp only [issue277.Execute, issue277.expected, issue277.uripath]
    generalize H.RunHttpxAndGetResults (tsURL ++ "/hpp/?pp=%22%3E%3Ch1%3Easdasd%3C%2Fh1%3E")
      H.debug [] = out
    obtain ⟨results, err⟩ := out
    cases err with
    | some e => simp
    | none =>
      match results with
      | [] => simp
      | [r0] => simp
      | _ :: _ :: _ => simp

/-- C4, as stated, fails: the flags `issue480.Execute` hands to the engine do
not include `-unsafe`. -/
theorem issue480_extra_lacks_unsafe :
    ¬ ("-unsafe" ∈ issue480.extra ∧ "-path" ∈ issue480.extra ∧
      "////////////////../../../../../../../../etc/passwd" ∈ issue480.extra) := by
  decide

/-- C4, amended: `issue480.Execute` hands the engine exactly the flags
`-path "////////////////../../../../../../../../etc/passwd"`, without
`-unsafe` (whose registered default is false); for a run that returns no
error and at least one result it returns nil exactly when the first result
contains that path rune for rune. -/
theorem issue480_flags_and_path_check (H : Harness) (tsURL : String) :
    issue480.extra = ["-path", "////////////////../../../../../../../../etc/passwd"] ∧
    "-unsafe" ∉ issue480.extra ∧
    defaultOptions.Unsafe = false ∧
    ∀ r0 rest,
      H.RunHttpxAndGetResults tsURL H.debug
          ["-path", "////////////////../../../../../../../../etc/passwd"] = ⟨r0 :: rest, none⟩ →
      (issue480.Execute H tsURL = .nil ↔
        "////////////////../../../../../../../../etc/passwd".data <:+: r0.data) := by
  refine ⟨rfl, by decide, rfl, fun r0 rest h => ?_⟩
  simp only [issue480.Execute, issue480.extra, h, issue480.uriPath, strings.Contains,
    containsChars_iff]
  by_cases hc : "////////////////../../../../../../../../etc/passwd".data <:+: r0.data
  · simp [hc]
  · simp [hc]

/-- C5, as stated, fails: both raw-request cases with the path `/%invalid`
return nil for a single result that does not contain `/%invalid`. -/
theorem raw_path_cases_accept_result_without_path :
    (∀ H : Harness, standardHttpGet.Execute { unsafe_ := true, stdinPath := "/%invalid" }
      (H.returning ⟨["http://127.0.0.1:8080"], none⟩) "http://127.0.0.1:8080" = .nil) ∧
    (∀ H : Harness, standardHttpGet.Execute { unsafe_ := true, path := "/%invalid" }
      (H.returning ⟨["http://127.0.0.1:8080"], none⟩) "http://127.0.0.1:8080" = .nil) ∧
    strings.Contains "http://127.0.0.1:8080" "/%invalid" = false := by
  refine ⟨fun H => ?_, fun H => ?_, by decide⟩
  · simp [standardHttpGet.Execute, Harness.returning]
  · simp [standardHttpGet.Execute, Harness.returning]

/-- C5, amended: the two raw-request cases of `httpTestcases` with the path
`/%invalid` (appended to the target URL with the flag `-unsafe` in the stdin
case; passed as `-unsafe -path "/%invalid"`, quotes included, in the cli-flag
case) return nil exactly when the run returns no error and exactly one
result; their `expectedOutput` is empty, so the result is not inspected. -/
theorem raw_path_cases_nil_iff_one_result (H : Harness) (tsURL : String) :
    ("Raw request with non standard rfc path via stdin",
      TestCase.standardHttpGet { unsafe_ := true, stdinPath := "/%invalid" }) ∈ httpTestcases ∧
    ("Raw request with non standard rfc path via cli flag",
      TestCase.standardHttpGet { unsafe_ := true, path := "/%invalid" }) ∈ httpTestcases ∧
    (standardHttpGet.Execute { unsafe_ := true, stdinPath := "/%invalid" } H tsURL = .nil ↔
      ∃ r0, H.RunHttpxAndGetResults (tsURL ++ "/%invalid") H.debug ["-unsafe"] = ⟨[r0], none⟩) ∧
    (standardHttpGet.Execute { unsafe_ := true, path := "/%invalid" } H tsURL = .nil ↔
      ∃ r0, H.RunHttpxAndGetResults tsURL H.debug ["-unsafe", "-path", "\"/%invalid\""] =
        ⟨[r0], none⟩) := by
  refine ⟨by decide, by decide, ?_, ?_⟩
  · have hu : standardHttpGet.URL { unsafe_ := true, stdinPath := "/%invalid" } tsURL =
        tsURL ++ "/%invalid" := by simp [standardHttpGet.URL]
    have he : standardHttpGet.extra { unsafe_ := true, stdinPath := "/%invalid" } = ["-unsafe"] := by
      decide
    simp only [standardHttpGet.Execute, hu, he]
    generalize H.RunHttpxAndGetResults (tsURL ++ "/%invalid") H.debug ["-unsafe"] = out
    obtain ⟨results, err⟩ := out
    cases err with
    | some e => simp
    | none =>
      match results with
      | [] => simp
      | [r0] => simp
      | _ :: _ :: _ => simp
  · have hu : standardHttpGet.URL { unsafe_ := true, path := "/%invalid" } tsURL = tsURL := by
      simp [standardHttpGet.URL]
    have he : standardHttpGet.extra { unsafe_ := true, path := "/%invalid" } =
        ["-unsafe", "-path", "\"/%invalid\""] := by decide
    simp only [standardHttpGet.Execute, hu, he]
    generalize H.RunHttpxAndGetResults tsURL H.debug ["-unsafe", "-path", "\"/%invalid\""] = out
    obtain ⟨results, err⟩ := out
    cases err with
    | some e => simp
    | none =>
      match results with
      | [] => simp
      | [r0] => simp
      | _ :: _ :: _ => simp

/-- C6: the target `issue303.Execute` hands to the engine is the base URL, whose
request path is `/`; the only route of the test server is `GET /hpp`, so the
lookup for the probed path finds no handler, while the handler that declares
`Content-Encoding: gzip` is found on `/hpp` only. -/
theorem issue303_target_misses_gzip_route (tsURL : String) :
    issue303.target tsURL = tsURL ∧
    requestPath tsURL (issue303.target tsURL) = "/" ∧
    Router.getValue issue303.routes "GET" (requestPath tsURL (issue303.target tsURL)) = none ∧
    Router.getValue issue303.routes "GET" "/hpp" = some "gzip-header-plain-body" := by
  have hp : requestPath tsURL (issue303.target tsURL) = "/" := by
    simp [requestPath, issue303.target]
  refine ⟨rfl, hp, ?_, by decide⟩
  rw [hp]
  decide

/-- C7, as stated, fails: `issue400.Execute` returns nil for a single result
line that carries no status code. -/
theorem issue400_accepts_line_without_status :
    (∀ H : Harness, issue400.Execute
      (H.returning ⟨["http://127.0.0.1:8080/receive"], none⟩) "http://127.0.0.1:8080" = .nil) ∧
    carriesStatusCode "http://127.0.0.1:8080/receive".data = false := by
  refine ⟨fun H => ?_, by decide⟩
  simp [issue400.Execute, Harness.returning]

/-- C7, amended: `issue400.Execute` (target `/receive`, flags `-body 'a=b'`,
`-x POST`, `-status-code`) returns nil exactly when the run returns no error
and exactly one result line; the content of the line is not inspected. -/
theorem issue400_nil_iff_one_result (H : Harness) (tsURL : String) :
    issue400.Execute H tsURL = .nil ↔
      ∃ r0, H.RunHttpxAndGetResults (tsURL ++ "/receive") H.debug
        ["-body 'a=b'", "-x POST", "-status-code"] = ⟨[r0], none⟩ := by
  simp only [issue400.Execute, issue400.extra]
  generalize H.RunHttpxAndGetResults (tsURL ++ "/receive") H.debug
    ["-body 'a=b'", "-x POST", "-status-code"] = out
  obtain ⟨results, err⟩ := out
  cases err with
  | some e => simp
  | none =>
    match results with
    | [] => simp
    | [r0] => simp
    | _ :: _ :: _ => simp

/-- C8: for a run that returns no error and at least one result,
`issue433.Execute` returns nil exactly when the first result holds neither a
newline nor a carriage return, and returns an error when it holds either. -/
theorem issue433_nil_iff_no_line_break (H : Harness) (tsURL r0 : String) (rest : List String)
    (hrun : H.RunHttpxAndGetResults (tsURL ++ "/index") H.debug ["-title", "-no-color"] =
      ⟨r0 :: rest, none⟩) :
    (issue433.Execute H tsURL = .nil ↔ '\n' ∉ r0.data ∧ '\r' ∉ r0.data) ∧
    (('\n' ∈ r0.data ∨ '\r' ∈ r0.data) → ∃ e, issue433.Execute H tsURL = .error e) := by
  have hn : strings.Contains r0 "\n" = true ↔ '\n' ∈ r0.data := containsChars_singleton _ _
  have hr : strings.Contains r0 "\r" = true ↔ '\r' ∈ r0.data := containsChars_singleton _ _
  simp only [issue433.Execute, hrun, hn, hr]
  by_cases h1 : '\n' ∈ r0.data
  · simp [h1]
  · by_cases h2 : '\r' ∈ r0.data
    · simp [h1, h2]
    · simp [h1, h2]

/-- C8 at a concrete run: the title of the case with its line breaks removed
is accepted. -/
theorem issue433_nil_iff_no_line_break_witness :
    (issue433.Execute
        ⟨fun _ _ _ => ⟨["http://127.0.0.1:8080/index [Project Discovery - Httpx>]"], none⟩,
          false, fun c => c⟩ "http://127.0.0.1:8080" = .nil ↔
      '\n' ∉ "http://127.0.0.1:8080/index [Project Discovery - Httpx>]".data ∧
      '\r' ∉ "http://127.0.0.1:8080/index [Project Discovery - Httpx>]".data) ∧
    (('\n' ∈ "http://127.0.0.1:8080/index [Project Discovery - Httpx>]".data ∨
      '\r' ∈ "http://127.0.0.1:8080/index [Project Discovery - Httpx>]".data) →
      ∃ e, issue433.Execute
        ⟨fun _ _ _ => ⟨["http://127.0.0.1:8080/index [Project Discovery - Httpx>]"], none⟩,
          false, fun c => c⟩ "http://127.0.0.1:8080" = .error e) :=
  issue433_nil_iff_no_line_break
    ⟨fun _ _ _ => ⟨["http://127.0.0.1:8080/index [Project Discovery - Httpx>]"], none⟩,
      false, fun c => c⟩
    "http://127.0.0.1:8080" "http://127.0.0.1:8080/index [Project Discovery - Httpx>]" [] rfl

/-! ## The redirect follower -/

/-- The walk of the follower ends for every network once the fuel covers the
hops that remain, and the chain it returns has no repeated URL and at most
`maxHops` hops after the original URL. -/
theorem RedirectFollower.follow_terminates (web : Web) (maxHops : Nat) :
    ∀ (fuel : Nat) (cur : String) (resp : HopResponse) (chain : List String) (hops : Nat),
      maxHops + 1 ≤ fuel + hops → chain.length = hops + 1 → hops ≤ maxHops → chain.Nodup →
      ∃ r, RedirectFollower.follow web maxHops fuel cur resp chain hops = some r ∧
        r.1.length ≤ maxHops + 1 ∧ r.1.Nodup := by
  intro fuel
  induction fuel with
  | zero => intro cur resp chain hops h1 _ h3 _; omega
  | succ fuel ih =>
    intro cur resp chain hops h1 h2 h3 h4
    unfold RedirectFollower.follow
    cases hn : RedirectFollower.next web cur resp with
    | none => exact ⟨(chain, resp), rfl, by simp only [h2]; omega, h4⟩
    | some next =>
      by_cases hmem : next ∈ chain
      · exact ⟨(chain, resp), by simp [hmem], by simp only [h2]; omega, h4⟩
      · by_cases hmax : hops + 1 > maxHops
        · exact ⟨(chain, resp), by simp [hmem, hmax], by simp only [h2]; omega, h4⟩
        · simp only [hmem, hmax, if_false]
          apply ih
          · omega
          · simp [h2]
          · omega
          · exact List.Nodup.append h4 (List.nodup_singleton _) (by simpa using hmem)

/-- The probe of one target always ends with a result, whatever the network
answers; with redirect following its chain starts no URL twice and makes at
most `MaxRedirects` hops. -/
theorem Engine.probe_terminates (web : Web) (options : Options) (target : String) :
    ∃ r, Engine.probe web options target = some r ∧
      r.chain.length ≤ options.MaxRedirects.toNat + 1 ∧ r.chain.Nodup := by
  unfold Engine.probe
  by_cases hf : (options.FollowRedirects || options.FollowHostRedirects) = true
  · obtain ⟨r, hr, hlen, hnd⟩ := RedirectFollower.follow_terminates web options.MaxRedirects.toNat
      (options.MaxRedirects.toNat + 1) target (web.fetch target) [target] 0
      (by omega) rfl (by omega) (List.nodup_singleton _)
    simp only [hf, if_true, hr, Option.map_some']
    exact ⟨_, rfl, hlen, hnd⟩
  · simp only [hf, if_false]
    exact ⟨_, rfl, by simp, List.nodup_singleton _⟩

/-- C2: with redirect following enabled, the probe of a URL whose server
answers every request with a 3xx response whose `Location` is that same URL
ends: the membership check stops the walk at the first repeated URL (the
chain is the original URL alone, no hop is made, so the hops stay within
`MaxRedirects`), the run emits exactly one result for the target, and
`issue363.Execute` accepts a run with one line for that result. -/
theorem self_redirect_terminates_with_one_result (web : Web) (options : Options)
    (url : String) (hfollow : options.FollowRedirects = true)
    (hself : ∀ u, 300 ≤ (web.fetch u).status ∧ (web.fetch u).status < 400 ∧
      (web.fetch u).location = some url)
    (hresolve : ∀ u, web.resolve u url = url) :
    ∃ r, Engine.run web options [url] = some [r] ∧
      r.chain = [url] ∧ r.finalURL = url ∧
      r.chain.length - 1 ≤ options.MaxRedirects.toNat ∧
      ∀ (H : Harness) (tsURL : String) (format : ProbeResult → String),
        issue363.Execute (H.returning ⟨[r].map format, none⟩) tsURL = .nil := by
  have hnext : RedirectFollower.next web url (web.fetch url) = some url := by
    obtain ⟨h1, h2, h3⟩ := hself url
    simp [RedirectFollower.next, h1, h2, h3, hresolve]
  have hprobe : Engine.probe web options url =
      some { target := url, finalURL := url, statusCode := (web.fetch url).status,
             chain := [url] } := by
    simp [Engine.probe, hfollow, RedirectFollower.follow, hnext]
  refine ⟨{ target := url, finalURL := url, statusCode := (web.fetch url).status,
            chain := [url] }, ?_, rfl, rfl, by simp, ?_⟩
  · simp [Engine.run, hprobe]
  · intro H tsURL format
    simp [issue363.Execute, Harness.returning]

/-- C2 at a concrete server: every request is answered `302` with the
`Location` of the probed URL, the flags are the defaults of `ParseOptions`
with `-follow-redirects`. -/
theorem self_redirect_terminates_with_one_result_witness :
    ∃ r, Engine.run ⟨fun _ => ⟨302, some "http://127.0.0.1:8080/redirect"⟩, fun _ loc => loc⟩
        { defaultOptions with FollowRedirects := true } ["http://127.0.0.1:8080/redirect"] =
          some [r] ∧
      r.chain = ["http://127.0.0.1:8080/redirect"] ∧
      r.finalURL = "http://127.0.0.1:8080/redirect" ∧
      r.chain.length - 1 ≤ ({ defaultOptions with FollowRedirects := true } : Options).MaxRedirects.toNat ∧
      ∀ (H : Harness) (tsURL : String) (format : ProbeResult → String),
        issue363.Execute (H.returning ⟨[r].map format, none⟩) tsURL = .nil :=
  self_redirect_terminates_with_one_result
    ⟨fun _ => ⟨302, some "http://127.0.0.1:8080/redirect"⟩, fun _ loc => loc⟩
    { defaultOptions with FollowRedirects := true } "http://127.0.0.1:8080/redirect" rfl
    (fun _ => ⟨by simp, by simp, rfl⟩) (fun _ => rfl)

/-- A run over a list of targets ends for every network and emits exactly one
result per target. -/
theorem Engine.run_one_result_per_target (web : Web) (options : Options)
    (targets : List String) :
    ∃ rs, Engine.run web options targets = some rs ∧ rs.length = targets.length := by
  induction targets with
  | nil => exact ⟨[], rfl, rfl⟩
  | cons t ts ih =>
    obtain ⟨rs, hrs, hlen⟩ := ih
    obtain ⟨r, hr, _⟩ := Engine.probe_terminates web options t
    exact ⟨r :: rs, by simp [Engine.run, hr, hrs], by simp [hlen]⟩

/-! ## `validateOptions` -/

theorem Except.bind_eq_error {ε α β : Type} (x : Except ε α) (f : α → Except ε β) (e : ε)
    (h : x >>= f = .error e) : x = .error e ∨ ∃ a, x = .ok a ∧ f a = .error e := by
  cases x with
  | error e' => left; simpa [bind, Except.bind] using h
  | ok a => right; exact ⟨a, rfl, by simpa [bind, Except.bind] using h⟩

theorem fatal_ne_multiOutput (msg : String) (c : Char) (hc : msg.data.head? = some c)
    (hne : c ≠ 'R') : Abort.fatal msg ≠ Abort.fatal multiOutputMsg := by
  intro h
  injection h with h
  have h2 := congrArg (fun s => s.data.head?) h
  simp only [hc, multiOutputMsg] at h2
  exact hne (by simpa using h2)

theorem validateOptions.inputFiles_error (env : Env) (options : Options) (e : Abort)
    (h : validateOptions.inputFiles env options = .error e) : e ≠ .fatal multiOutputMsg := by
  unfold validateOptions.inputFiles at h
  split at h
  · injection h with h
    subst h
    exact fatal_ne_multiOutput _ 'F' (by simp [String.data_append]) (by decide)
  · split at h
    · injection h with h
      subst h
      exact fatal_ne_multiOutput _ 'F' (by simp [String.data_append]) (by decide)
    · cases h

theorem parseIntList_error (env : Env) (what value : String) (e : Abort)
    (h : parseIntList env what value = .error e) : e ≠ .fatal multiOutputMsg := by
  unfold parseIntList at h
  split at h
  · cases h
  · injection h with h
    subst h
    exact fatal_ne_multiOutput _ 'I' (by simp [String.data_append]) (by decide)

theorem compileRegex_error (env : Env) (what value : String) (old : Option Regexp) (e : Abort)
    (h : compileRegex env what value old = .error e) : e ≠ .fatal multiOutputMsg := by
  unfold compileRegex at h
  split at h
  · split at h
    · cases h
    · injection h with h
      subst h
      exact fatal_ne_multiOutput _ 'I' (by simp [String.data_append]) (by decide)
  · cases h

theorem validateOptions.matchers_error (env : Env) (options : Options) (e : Abort)
    (h : validateOptions.matchers env options = .error e) : e ≠ .fatal multiOutputMsg := by
  unfold validateOptions.matchers at h
  rcases Except.bind_eq_error _ _ _ h with h1 | ⟨_, _, h⟩
  · exact parseIntList_error _ _ _ _ h1
  rcases Except.bind_eq_error _ _ _ h with h1 | ⟨_, _, h⟩
  · exact parseIntList_error _ _ _ _ h1
  rcases Except.bind_eq_error _ _ _ h with h1 | ⟨_, _, h⟩
  · exact parseIntList_error _ _ _ _ h1
  rcases Except.bind_eq_error _ _ _ h with h1 | ⟨_, _, h⟩
  · exact parseIntList_error _ _ _ _ h1
  rcases Except.bind_eq_error _ _ _ h with h1 | ⟨_, _, h⟩
  · exact compileRegex_error _ _ _ _ _ h1
  rcases Except.bind_eq_error _ _ _ h with h1 | ⟨_, _, h⟩
  · exact compileRegex_error _ _ _ _ _ h1
  rcases Except.bind_eq_error _ _ _ h with h1 | ⟨_, _, h⟩
  · exact parseIntList_error _ _ _ _ h1
  rcases Except.bind_eq_error _ _ _ h with h1 | ⟨_, _, h⟩
  · exact parseIntList_error _ _ _ _ h1
  rcases Except.bind_eq_error _ _ _ h with h1 | ⟨_, _, h⟩
  · exact parseIntList_error _ _ _ _ h1
  rcases Except.bind_eq_error _ _ _ h with h1 | ⟨_, _, h⟩
  · exact parseIntList_error _ _ _ _ h1
  cases h

theorem validateOptions.readResolvers_error (env : Env) (rs acc : List String) (e : Abort)
    (h : validateOptions.readResolvers env rs acc = .error e) : e ≠ .fatal multiOutputMsg := by
  induction rs generalizing acc with
  | nil => cases h
  | cons r rest ih =>
    unfold validateOptions.readResolvers at h
    split at h
    · split at h
      · injection h with h
        subst h
        exact fatal_ne_multiOutput _ 'C' (by simp [String.data_append]) (by decide)
      · exact ih _ h
    · exact ih _ h

theorem validateOptions.resolvers_error (env : Env) (v : Validated) (e : Abort)
    (h : validateOptions.resolvers env v = .error e) : e ≠ .fatal multiOutputMsg := by
  unfold validateOptions.resolvers at h
  split at h
  · rename_i e' h1
    injection h with h
    subst h
    exact validateOptions.readResolvers_error _ _ _ _ h1
  · cases h

/-- C9: `validateOptions` ends with a fatal error whenever both `CSVOutput`
and `JSONOutput` are set, whatever the other options and the file system hold
(with the message of the output-format check once the input files are
there); when at most one of the two is set the output-format check passes,
and no fatal error of `validateOptions` carries its message. -/
theorem validateOptions_output_format (env : Env) (options : Options) :
    (options.CSVOutput = true ∧ options.JSONOutput = true →
      ∃ msg, validateOptions env options = .error (.fatal msg)) ∧
    (options.CSVOutput = true ∧ options.JSONOutput = true →
      validateOptions.inputFiles env options = .ok () →
      validateOptions env options = .error (.fatal multiOutputMsg)) ∧
    (¬ (options.CSVOutput = true ∧ options.JSONOutput = true) →
      validateOptions.outputFormat options = .ok () ∧
      validateOptions env options ≠ .error (.fatal multiOutputMsg)) := by
  have hboth : options.CSVOutput = true ∧ options.JSONOutput = true →
      validateOptions.inputFiles env options = .ok () →
      validateOptions env options = .error (.fatal multiOutputMsg) := by
    rintro ⟨hc, hj⟩ hin
    simp [validateOptions, hin, validateOptions.outputFormat, hc, hj, bind, Except.bind]
  refine ⟨fun hb => ?_, hboth, fun hnot => ?_⟩
  · cases hin : validateOptions.inputFiles env options with
    | ok u => exact ⟨_, hboth hb hin⟩
    | error e =>
      have he : validateOptions env options = .error e := by
        simp [validateOptions, hin, bind, Except.bind]
      unfold validateOptions.inputFiles at hin
      split at hin
      · injection hin with hin
        exact ⟨_, by rw [he, ← hin]⟩
      · split at hin
        · injection hin with hin
          exact ⟨_, by rw [he, ← hin]⟩
        · cases hin
  · have hfmt : validateOptions.outputFormat options = .ok () := by
      unfold validateOptions.outputFormat
      cases hc : options.CSVOutput <;> cases hj : options.JSONOutput <;> simp_all
    refine ⟨hfmt, fun h => ?_⟩
    unfold validateOptions at h
    rcases Except.bind_eq_error _ _ _ h with h1 | ⟨_, _, h⟩
    · exact validateOptions.inputFiles_error _ _ _ h1 rfl
    rcases Except.bind_eq_error _ _ _ h with h1 | ⟨_, _, h⟩
    · rw [hfmt] at h1
      cases h1
    rcases Except.bind_eq_error _ _ _ h with h1 | ⟨_, _, h⟩
    · exact validateOptions.matchers_error _ _ _ h1 rfl
    rcases Except.bind_eq_error _ _ _ h with h1 | ⟨_, _, h⟩
    · exact validateOptions.resolvers_error _ _ _ h1 rfl
    cases h

/-- C9 at a concrete input: the defaults of `ParseOptions` with `-csv` and
`-json` end `validateOptions` with the message of the output-format check. -/
theorem validateOptions_output_format_witness :
    validateOptions resumeOnlyEnv { defaultOptions with CSVOutput := true, JSONOutput := true } =
      .error (.fatal multiOutputMsg) :=
  (validateOptions_output_format resumeOnlyEnv
    { defaultOptions with CSVOutput := true, JSONOutput := true }).2.1 ⟨rfl, rfl⟩ rfl

/-! ## Resume -/

/-- C10: `ShouldLoadResume` is true exactly when `Resume` is set and the file
`resume.cfg` exists; `configureResume` asks for the checkpoint to be loaded
(once, from `resume.cfg`) in exactly those cases, taking the record and the
error of the load, and in every other case it loads nothing, returns no
error and leaves the fresh empty checkpoint. -/
theorem shouldLoadResume_iff_configureResume_loads (env : Env) (options : Options) :
    (ShouldLoadResume env options = true ↔
      options.Resume = true ∧ env.FileExists "resume.cfg" = true) ∧
    (configureResume env options).loaded =
      (if ShouldLoadResume env options = true then ["resume.cfg"] else []) ∧
    (ShouldLoadResume env options = true →
      (configureResume env options).options.resumeCfg =
          (env.goconfigLoad (some {}) "resume.cfg").1 ∧
        (configureResume env options).err = (env.goconfigLoad (some {}) "resume.cfg").2) ∧
    (ShouldLoadResume env options = false →
      (configureResume env options).loaded = [] ∧
        (configureResume env options).options.resumeCfg = some {} ∧
        (configureResume env options).err = none) ∧
    ShouldLoadResume env (configureResume env options).options = ShouldLoadResume env options := by
  cases hr : options.Resume <;> cases hf : env.FileExists "resume.cfg" <;>
    simp [ShouldLoadResume, configureResume, DefaultResumeFile, hr, hf]

/-- C10 at concrete inputs: with `resume.cfg` on disk, `-resume` loads the
checkpoint and the defaults load nothing. -/
theorem shouldLoadResume_iff_configureResume_loads_witness :
    ShouldLoadResume resumeOnlyEnv { defaultOptions with Resume := true } = true ∧
    (configureResume resumeOnlyEnv { defaultOptions with Resume := true }).loaded =
      ["resume.cfg"] ∧
    (configureResume resumeOnlyEnv { defaultOptions with Resume := true }).options.resumeCfg =
      some { processed := ["http://127.0.0.1:8080"] } ∧
    ShouldLoadResume resumeOnlyEnv defaultOptions = false ∧
    (configureResume resumeOnlyEnv defaultOptions).loaded = [] ∧
    (configureResume resumeOnlyEnv defaultOptions).options.resumeCfg = some {} := by
  have h1 := shouldLoadResume_iff_configureResume_loads resumeOnlyEnv
    { defaultOptions with Resume := true }
  have h2 := shouldLoadResume_iff_configureResume_loads resumeOnlyEnv defaultOptions
  have t : ShouldLoadResume resumeOnlyEnv { defaultOptions with Resume := true } = true := rfl
  have f : ShouldLoadResume resumeOnlyEnv defaultOptions = false := rfl
  exact ⟨t, by rw [h1.2.1, if_pos t], (h1.2.2.1 t).1, f, (h2.2.2.2.1 f).1, (h2.2.2.2.1 f).2.1⟩

/-! ## What `validateOptions` leaves in the record -/

theorem Except.bind_eq_ok {ε α β : Type} (x : Except ε α) (f : α → Except ε β) (b : β)
    (h : x >>= f = .ok b) : ∃ a, x = .ok a ∧ f a = .ok b := by
  cases x with
  | error e => simp [bind, Except.bind] at h
  | ok a => exact ⟨a, rfl, by simpa [bind, Except.bind] using h⟩

theorem parseIntList_ok (env : Env) (what value : String) (l : List Int)
    (h : parseIntList env what value = .ok l) : env.StringToSliceInt value = .ok l := by
  unfold parseIntList at h
  split at h
  · rename_i xs hx
    injection h with h
    rw [hx, h]
  · cases h

/-- A successful run of lines 409-443 leaves each of the eight lists equal to
the parse of its own option string and writes no field besides the eight
lists and the two compiled expressions. -/
theorem validateOptions.matchers_ok (env : Env) (o m : Options)
    (h : validateOptions.matchers env o = .ok m) :
    env.StringToSliceInt o.OutputMatchStatusCode = .ok m.matchStatusCode ∧
    env.StringToSliceInt o.OutputMatchContentLength = .ok m.matchContentLength ∧
    env.StringToSliceInt o.OutputFilterStatusCode = .ok m.filterStatusCode ∧
    env.StringToSliceInt o.OutputFilterContentLength = .ok m.filterContentLength ∧
    env.StringToSliceInt o.OutputMatchLinesCount = .ok m.matchLinesCount ∧
    env.StringToSliceInt o.OutputMatchWordsCount = .ok m.matchWordsCount ∧
    env.StringToSliceInt o.OutputFilterLinesCount = .ok m.filterLinesCount ∧
    env.StringToSliceInt o.OutputFilterWordsCount = .ok m.filterWordsCount ∧
    m = { o with
      matchStatusCode := m.matchStatusCode
      matchContentLength := m.matchContentLength
      filterStatusCode := m.filterStatusCode
      filterContentLength := m.filterContentLength
      filterRegex := m.filterRegex
      matchRegex := m.matchRegex
      matchLinesCount := m.matchLinesCount
      matchWordsCount := m.matchWordsCount
      filterLinesCount := m.filterLinesCount
      filterWordsCount := m.filterWordsCount } := by
  unfold validateOptions.matchers at h
  obtain ⟨l1, h1, h⟩ := Except.bind_eq_ok _ _ _ h
  obtain ⟨l2, h2, h⟩ := Except.bind_eq_ok _ _ _ h
  obtain ⟨l3, h3, h⟩ := Except.bind_eq_ok _ _ _ h
  obtain ⟨l4, h4, h⟩ := Except.bind_eq_ok _ _ _ h
  obtain ⟨r1, _, h⟩ := Except.bind_eq_ok _ _ _ h
  obtain ⟨r2, _, h⟩ := Except.bind_eq_ok _ _ _ h
  obtain ⟨l5, h5, h⟩ := Except.bind_eq_ok _ _ _ h
  obtain ⟨l6, h6, h⟩ := Except.bind_eq_ok _ _ _ h
  obtain ⟨l7, h7, h⟩ := Except.bind_eq_ok _ _ _ h
  obtain ⟨l8, h8, h⟩ := Except.bind_eq_ok _ _ _ h
  injection h with h
  subst h
  exact ⟨parseIntList_ok _ _ _ _ h1, parseIntList_ok _ _ _ _ h2, parseIntList_ok _ _ _ _ h3,
    parseIntList_ok _ _ _ _ h4, parseIntList_ok _ _ _ _ h5, parseIntList_ok _ _ _ _ h6,
    parseIntList_ok _ _ _ _ h7, parseIntList_ok _ _ _ _ h8, rfl⟩

/-- A successful run of `validateOptions` is the run of its last three steps
on the record of the matchers step with the resolvers read. -/
theorem validateOptions_ok (env : Env) (o : Options) (v : Validated)
    (h : validateOptions env o = .ok v) :
    ∃ m rs, validateOptions.matchers env o = .ok m ∧
      validateOptions.readResolvers env o.Resolvers [] = .ok rs ∧
      v = validateOptions.hashes env (validateOptions.favicon (validateOptions.storeResponse
        { options := { m with Resolvers := rs }
          log := if rs.length > 0 then
              [⟨.debug, "Using resolvers: " ++ strings.Join rs "," ++ "\n"⟩]
            else [] })) := by
  unfold validateOptions at h
  obtain ⟨_, _, h⟩ := Except.bind_eq_ok _ _ _ h
  obtain ⟨_, _, h⟩ := Except.bind_eq_ok _ _ _ h
  obtain ⟨m, hm, h⟩ := Except.bind_eq_ok _ _ _ h
  obtain ⟨v0, hv0, h⟩ := Except.bind_eq_ok _ _ _ h
  injection h with h
  have hres : m.Resolvers = o.Resolvers := by
    have := (validateOptions.matchers_ok env o m hm).2.2.2.2.2.2.2.2
    rw [this]
  unfold validateOptions.resolvers at hv0
  simp only [hres] at hv0
  split at hv0
  · cases hv0
  · rename_i rs hrs
    injection hv0 with hv0
    refine ⟨m, rs, hm, hrs, ?_⟩
    rw [← h, ← hv0]
    simp

theorem validateOptions.hashes_options (env : Env) (v : Validated) :
    (validateOptions.hashes env v).options = v.options := by
  unfold validateOptions.hashes
  split <;> rfl

theorem validateOptions.tail_StoreResponse (env : Env) (w : Validated) :
    (validateOptions.hashes env (validateOptions.favicon
      (validateOptions.storeResponse w))).options.StoreResponse =
      (w.options.StoreResponse || decide (w.options.StoreResponseDir ≠ "")) := by
  rw [validateOptions.hashes_options]
  unfold validateOptions.favicon validateOptions.storeResponse
  by_cases hs : w.options.StoreResponse = true <;> by_cases hd : w.options.StoreResponseDir = "" <;>
    by_cases hf : w.options.Favicon = true <;> simp [hs, hd, hf, DefaultOutputDirectory]

theorem validateOptions.tail_StoreResponseDir (env : Env) (w : Validated) :
    (validateOptions.hashes env (validateOptions.favicon
      (validateOptions.storeResponse w))).options.StoreResponseDir =
      (if w.options.StoreResponse = true ∧ w.options.StoreResponseDir = "" then "output"
       else w.options.StoreResponseDir) := by
  rw [validateOptions.hashes_options]
  unfold validateOptions.favicon validateOptions.storeResponse
  by_cases hs : w.options.StoreResponse = true <;> by_cases hd : w.options.StoreResponseDir = "" <;>
    by_cases hf : w.options.Favicon = true <;> simp [hs, hd, hf, DefaultOutputDirectory]

theorem validateOptions.tail_RequestURIs (env : Env) (w : Validated) :
    (validateOptions.hashes env (validateOptions.favicon
      (validateOptions.storeResponse w))).options.RequestURIs =
      (if w.options.Favicon = true then "/favicon.ico" else w.options.RequestURIs) := by
  rw [validateOptions.hashes_options]
  unfold validateOptions.favicon validateOptions.storeResponse
  by_cases hs : w.options.StoreResponse = true <;> by_cases hd : w.options.StoreResponseDir = "" <;>
    by_cases hf : w.options.Favicon = true <;> simp [hs, hd, hf, DefaultOutputDirectory]

/-- The fields the last three steps of `validateOptions` do not write. -/
theorem validateOptions.tail_frame (env : Env) (w : Validated) :
    let r := (validateOptions.hashes env (validateOptions.favicon
      (validateOptions.storeResponse w))).options
    r.Favicon = w.options.Favicon ∧ r.Hashes = w.options.Hashes ∧
    r.StatsInterval = w.options.StatsInterval ∧ r.ShowStatistics = w.options.ShowStatistics ∧
    r.matchStatusCode = w.options.matchStatusCode ∧
    r.matchContentLength = w.options.matchContentLength ∧
    r.filterStatusCode = w.options.filterStatusCode ∧
    r.filterContentLength = w.options.filterContentLength ∧
    r.matchLinesCount = w.options.matchLinesCount ∧
    r.matchWordsCount = w.options.matchWordsCount ∧
    r.filterLinesCount = w.options.filterLinesCount ∧
    r.filterWordsCount = w.options.filterWordsCount := by
  simp only [validateOptions.hashes_options]
  unfold validateOptions.favicon validateOptions.storeResponse
  by_cases hs : w.options.StoreResponse = true <;> by_cases hd : w.options.StoreResponseDir = "" <;>
    by_cases hf : w.options.Favicon = true <;> simp [hs, hd, hf, DefaultOutputDirectory]

/-- C12: after `validateOptions` returns, `StoreResponse` is true exactly when
`StoreResponseDir` is non-empty: `StoreResponse` with an empty directory
gives the directory `output`, a directory without `StoreResponse` turns the
flag on, neither given leaves both unset, and a non-empty directory is never
changed. -/
theorem validateOptions_storeResponse_iff_dir (env : Env) (o : Options) (v : Validated)
    (h : validateOptions env o = .ok v) :
    (v.options.StoreResponse = true ↔ v.options.StoreResponseDir ≠ "") ∧
    (o.StoreResponse = true → o.StoreResponseDir = "" →
      v.options.StoreResponseDir = "output" ∧ v.options.StoreResponse = true) ∧
    (o.StoreResponseDir ≠ "" →
      v.options.StoreResponseDir = o.StoreResponseDir ∧ v.options.StoreResponse = true) ∧
    (o.StoreResponse = false → o.StoreResponseDir = "" →
      v.options.StoreResponse = false ∧ v.options.StoreResponseDir = "") := by
  obtain ⟨m, rs, hm, _, hv⟩ := validateOptions_ok env o v h
  have hframe := (validateOptions.matchers_ok env o m hm).2.2.2.2.2.2.2.2
  have hs : m.StoreResponse = o.StoreResponse := by rw [hframe]
  have hd : m.StoreResponseDir = o.StoreResponseDir := by rw [hframe]
  have h1 : v.options.StoreResponse =
      (o.StoreResponse || decide (o.StoreResponseDir ≠ "")) := by
    rw [hv, validateOptions.tail_StoreResponse]
    simp only [hs, hd]
  have h2 : v.options.StoreResponseDir =
      if o.StoreResponse = true ∧ o.StoreResponseDir = "" then "output"
      else o.StoreResponseDir := by
    rw [hv, validateOptions.tail_StoreResponseDir]
    simp only [hs, hd]
  rw [h1, h2]
  by_cases hs' : o.StoreResponse = true <;> by_cases hd' : o.StoreResponseDir = "" <;>
    simp [hs', hd']

/-- C12 at a concrete input: `-store-response` alone ends with the directory
`output` and the flag set. -/
theorem validateOptions_storeResponse_iff_dir_witness :
    ∃ v, validateOptions resumeOnlyEnv { defaultOptions with StoreResponse := true } = .ok v ∧
      (v.options.StoreResponse = true ↔ v.options.StoreResponseDir ≠ "") ∧
      v.options.StoreResponseDir = "output" ∧ v.options.StoreResponse = true := by
  have hrun : validateOptions resumeOnlyEnv { defaultOptions with StoreResponse := true } =
      .ok ⟨{ defaultOptions with StoreResponse := true, StoreResponseDir := "output" },
        [⟨.debug, "Store response directory not specified, using \"output\"\n"⟩]⟩ := by
    rfl
  have key := validateOptions_storeResponse_iff_dir resumeOnlyEnv
    { defaultOptions with StoreResponse := true } _ hrun
  exact ⟨_, hrun, key.1, key.2.1 rfl rfl⟩

/-- C13: when `Favicon` is set `validateOptions` leaves `RequestURIs` equal to
`/favicon.ico` whatever was supplied with `-path`; when it is not set
`RequestURIs` is unchanged; `Favicon` itself is not written. -/
theorem validateOptions_favicon_requestURIs (env : Env) (o : Options) (v : Validated)
    (h : validateOptions env o = .ok v) :
    (o.Favicon = true → v.options.RequestURIs = "/favicon.ico") ∧
    (o.Favicon = false → v.options.RequestURIs = o.RequestURIs) ∧
    v.options.Favicon = o.Favicon := by
  obtain ⟨m, rs, hm, _, hv⟩ := validateOptions_ok env o v h
  have hframe := (validateOptions.matchers_ok env o m hm).2.2.2.2.2.2.2.2
  have hf : m.Favicon = o.Favicon := by rw [hframe]
  have hu : m.RequestURIs = o.RequestURIs := by rw [hframe]
  have h1 : v.options.RequestURIs =
      if o.Favicon = true then "/favicon.ico" else o.RequestURIs := by
    rw [hv, validateOptions.tail_RequestURIs]
    simp only [hf, hu]
  have h2 : v.options.Favicon = o.Favicon := by
    rw [hv, (validateOptions.tail_frame env _).1]
    exact hf
  refine ⟨fun hfav => by rw [h1, if_pos hfav], fun hfav => ?_, h2⟩
  rw [h1, if_neg (by simp [hfav])]

/-- C13 at a concrete input: `-favicon -path /admin,/login` ends with the
single path `/favicon.ico`. -/
theorem validateOptions_favicon_requestURIs_witness :
    ∃ v, validateOptions resumeOnlyEnv
        { defaultOptions with Favicon := true, RequestURIs := "/admin,/login" } = .ok v ∧
      v.options.RequestURIs = "/favicon.ico" := by
  have hrun : validateOptions resumeOnlyEnv
      { defaultOptions with Favicon := true, RequestURIs := "/admin,/login" } =
      .ok ⟨{ defaultOptions with Favicon := true, RequestURIs := "/favicon.ico" },
        [⟨.debug,
          "Setting single path to \"favicon.ico\" and ignoring multiple paths settings\n"⟩]⟩ := by
    rfl
  exact ⟨_, hrun, (validateOptions_favicon_requestURIs resumeOnlyEnv
    { defaultOptions with Favicon := true, RequestURIs := "/admin,/login" } _ hrun).1 rfl⟩

theorem parseIntList_fatal (env : Env) (what value : String) (e : Abort)
    (h : parseIntList env what value = .error e) : ∃ msg, e = .fatal msg := by
  unfold parseIntList at h
  split at h
  · cases h
  · injection h with h
    exact ⟨_, h.symm⟩

theorem compileRegex_fatal (env : Env) (what value : String) (old : Option Regexp) (e : Abort)
    (h : compileRegex env what value old = .error e) : ∃ msg, e = .fatal msg := by
  unfold compileRegex at h
  split at h
  · split at h
    · cases h
    · injection h with h
      exact ⟨_, h.symm⟩
  · cases h

theorem validateOptions.matchers_fatal (env : Env) (options : Options) (e : Abort)
    (h : validateOptions.matchers env options = .error e) : ∃ msg, e = .fatal msg := by
  unfold validateOptions.matchers at h
  rcases Except.bind_eq_error _ _ _ h with h1 | ⟨_, _, h⟩
  · exact parseIntList_fatal _ _ _ _ h1
  rcases Except.bind_eq_error _ _ _ h with h1 | ⟨_, _, h⟩
  · exact parseIntList_fatal _ _ _ _ h1
  rcases Except.bind_eq_error _ _ _ h with h1 | ⟨_, _, h⟩
  · exact parseIntList_fatal _ _ _ _ h1
  rcases Except.bind_eq_error _ _ _ h with h1 | ⟨_, _, h⟩
  · exact parseIntList_fatal _ _ _ _ h1
  rcases Except.bind_eq_error _ _ _ h with h1 | ⟨_, _, h⟩
  · exact compileRegex_fatal _ _ _ _ _ h1
  rcases Except.bind_eq_error _ _ _ h with h1 | ⟨_, _, h⟩
  · exact compileRegex_fatal _ _ _ _ _ h1
  rcases Except.bind_eq_error _ _ _ h with h1 | ⟨_, _, h⟩
  · exact parseIntList_fatal _ _ _ _ h1
  rcases Except.bind_eq_error _ _ _ h with h1 | ⟨_, _, h⟩
  · exact parseIntList_fatal _ _ _ _ h1
  rcases Except.bind_eq_error _ _ _ h with h1 | ⟨_, _, h⟩
  · exact parseIntList_fatal _ _ _ _ h1
  rcases Except.bind_eq_error _ _ _ h with h1 | ⟨_, _, h⟩
  · exact parseIntList_fatal _ _ _ _ h1
  cases h

theorem validateOptions.readResolvers_fatal (env : Env) (rs acc : List String) (e : Abort)
    (h : validateOptions.readResolvers env rs acc = .error e) : ∃ msg, e = .fatal msg := by
  induction rs generalizing acc with
  | nil => cases h
  | cons r rest ih =>
    unfold validateOptions.readResolvers at h
    split at h
    · split at h
      · injection h with h
        exact ⟨_, h.symm⟩
      · exact ih _ h
    · exact ih _ h

/-- Every way `validateOptions` ends the run is a `gologger.Fatal`. -/
theorem validateOptions_error_fatal (env : Env) (o : Options) (e : Abort)
    (h : validateOptions env o = .error e) : ∃ msg, e = .fatal msg := by
  unfold validateOptions at h
  rcases Except.bind_eq_error _ _ _ h with h1 | ⟨_, _, h⟩
  · unfold validateOptions.inputFiles at h1
    split at h1
    · injection h1 with h1
      exact ⟨_, h1.symm⟩
    · split at h1
      · injection h1 with h1
        exact ⟨_, h1.symm⟩
      · cases h1
  rcases Except.bind_eq_error _ _ _ h with h1 | ⟨_, _, h⟩
  · unfold validateOptions.outputFormat at h1
    by_cases hb : (o.CSVOutput && o.JSONOutput) = true
    · simp only [hb, if_true] at h1
      injection h1 with h1
      exact ⟨_, h1.symm⟩
    · simp only [hb, if_false] at h1
      cases h1
  rcases Except.bind_eq_error _ _ _ h with h1 | ⟨_, _, h⟩
  · exact validateOptions.matchers_fatal _ _ _ h1
  rcases Except.bind_eq_error _ _ _ h with h1 | ⟨_, _, h⟩
  · unfold validateOptions.resolvers at h1
    split at h1
    · rename_i e' h2
      injection h1 with h1
      subst h1
      exact validateOptions.readResolvers_fatal _ _ _ _ h2
    · cases h1
  cases h

/-- C17: when `validateOptions` returns, each of the eight derived lists is
the parse of the option string of its own category and polarity, and
`validateOptions` ends with a fatal error when any one of the eight strings
fails to parse. -/
theorem validateOptions_lists_from_own_strings (env : Env) (o : Options) :
    (∀ v, validateOptions env o = .ok v →
      env.StringToSliceInt o.OutputMatchStatusCode = .ok v.options.matchStatusCode ∧
      env.StringToSliceInt o.OutputMatchContentLength = .ok v.options.matchContentLength ∧
      env.StringToSliceInt o.OutputFilterStatusCode = .ok v.options.filterStatusCode ∧
      env.StringToSliceInt o.OutputFilterContentLength = .ok v.options.filterContentLength ∧
      env.StringToSliceInt o.OutputMatchLinesCount = .ok v.options.matchLinesCount ∧
      env.StringToSliceInt o.OutputMatchWordsCount = .ok v.options.matchWordsCount ∧
      env.StringToSliceInt o.OutputFilterLinesCount = .ok v.options.filterLinesCount ∧
      env.StringToSliceInt o.OutputFilterWordsCount = .ok v.options.filterWordsCount) ∧
    (∀ s ∈ [o.OutputMatchStatusCode, o.OutputMatchContentLength, o.OutputFilterStatusCode,
        o.OutputFilterContentLength, o.OutputMatchLinesCount, o.OutputMatchWordsCount,
        o.OutputFilterLinesCount, o.OutputFilterWordsCount],
      ∀ err, env.StringToSliceInt s = .error err →
        ∃ msg, validateOptions env o = .error (.fatal msg)) := by
  have hok : ∀ v, validateOptions env o = .ok v →
      env.StringToSliceInt o.OutputMatchStatusCode = .ok v.options.matchStatusCode ∧
      env.StringToSliceInt o.OutputMatchContentLength = .ok v.options.matchContentLength ∧
      env.StringToSliceInt o.OutputFilterStatusCode = .ok v.options.filterStatusCode ∧
      env.StringToSliceInt o.OutputFilterContentLength = .ok v.options.filterContentLength ∧
      env.StringToSliceInt o.OutputMatchLinesCount = .ok v.options.matchLinesCount ∧
      env.StringToSliceInt o.OutputMatchWordsCount = .ok v.options.matchWordsCount ∧
      env.StringToSliceInt o.OutputFilterLinesCount = .ok v.options.filterLinesCount ∧
      env.StringToSliceInt o.OutputFilterWordsCount = .ok v.options.filterWordsCount := by
    intro v h
    obtain ⟨m, rs, hm, _, hv⟩ := validateOptions_ok env o v h
    obtain ⟨h1, h2, h3, h4, h5, h6, h7, h8, _⟩ := validateOptions.matchers_ok env o m hm
    obtain ⟨_, _, _, _, f1, f2, f3, f4, f5, f6, f7, f8⟩ := validateOptions.tail_frame env
      { options := { m with Resolvers := rs }
        log := if rs.length > 0 then
            [⟨.debug, "Using resolvers: " ++ strings.Join rs "," ++ "\n"⟩]
          else [] }
    rw [← hv] at f1 f2 f3 f4 f5 f6 f7 f8
    rw [f1, f2, f3, f4, f5, f6, f7, f8]
    exact ⟨h1, h2, h3, h4, h5, h6, h7, h8⟩
  refine ⟨hok, fun s hs err herr => ?_⟩
  cases hv : validateOptions env o with
  | error e =>
    obtain ⟨msg, hmsg⟩ := validateOptions_error_fatal env o e hv
    exact ⟨msg, by rw [hmsg]⟩
  | ok v =>
    exfalso
    obtain ⟨h1, h2, h3, h4, h5, h6, h7, h8⟩ := hok v hv
    simp only [List.mem_cons, List.mem_singleton, List.not_mem_nil, or_false] at hs
    rcases hs with rfl | rfl | rfl | rfl | rfl | rfl | rfl | rfl
    · rw [h1] at herr; cases herr
    · rw [h2] at herr; cases herr
    · rw [h3] at herr; cases herr
    · rw [h4] at herr; cases herr
    · rw [h5] at herr; cases herr
    · rw [h6] at herr; cases herr
    · rw [h7] at herr; cases herr
    · rw [h8] at herr; cases herr

/-! ## The hash names -/

theorem filterMap_ite_eq_map_filter {α β : Type} (p : α → Bool) (g : α → β) (l : List α) :
    l.filterMap (fun x => if p x = true then some (g x) else none) = (l.filter p).map g := by
  induction l with
  | nil => rfl
  | cons a l ih =>
    by_cases ha : p a = true
    · simp [List.filterMap_cons, ha, ih]
    · simp [List.filterMap_cons, ha, ih]

theorem filter_error_map_error (l : List String) (g : String → String) :
    (l.map fun x => (⟨Level.error, g x⟩ : LogEntry)).filter (fun e => e.level == Level.error) =
      l.map fun x => (⟨Level.error, g x⟩ : LogEntry) := by
  induction l with
  | nil => rfl
  | cons a l ih => simp [List.filter_cons, ih]

/-- The error messages among the messages of the last three steps of
`validateOptions`: those already there, then one for every entry of `Hashes`
whose lower-cased text is not a supported name. -/
theorem validateOptions.tail_log_errors (env : Env) (w : Validated) :
    (validateOptions.hashes env (validateOptions.favicon
      (validateOptions.storeResponse w))).log.filter (fun e => e.level == Level.error) =
      w.log.filter (fun e => e.level == Level.error) ++
      (if w.options.Hashes = "" then []
       else ((strings.Split w.options.Hashes ",").filter fun hashType =>
          !decide (strings.ToLower env.ToLower hashType ∈ supportedHashes)).map fun hashType =>
            (⟨Level.error, "Unsupported hash type: " ++ hashType ++ "\n"⟩ : LogEntry)) := by
  have hfm : ∀ l : List String,
      (l.filterMap fun hashType =>
        if StringSliceContains supportedHashes (strings.ToLower env.ToLower hashType) = false then
          some (⟨Level.error, "Unsupported hash type: " ++ hashType ++ "\n"⟩ : LogEntry)
        else none) =
      (l.filter fun hashType =>
        !decide (strings.ToLower env.ToLower hashType ∈ supportedHashes)).map fun hashType =>
          (⟨Level.error, "Unsupported hash type: " ++ hashType ++ "\n"⟩ : LogEntry) := by
    intro l
    rw [← filterMap_ite_eq_map_filter]
    congr 1
    funext hashType
    simp [StringSliceContains]
  unfold validateOptions.hashes validateOptions.favicon validateOptions.storeResponse
  by_cases hs : w.options.StoreResponse = true <;> by_cases hd : w.options.StoreResponseDir = "" <;>
    by_cases hf : w.options.Favicon = true <;> by_cases hh : w.options.Hashes = "" <;>
    simp [hs, hd, hf, hh, DefaultOutputDirectory, hfm, List.filter_append, filter_error_map_error]

theorem validateOptions.matchers_set_hashes (env : Env) (o m : Options) (hashes : String)
    (h : validateOptions.matchers env o = .ok m) :
    ∃ m', validateOptions.matchers env { o with Hashes := hashes } = .ok m' := by
  unfold validateOptions.matchers at h
  obtain ⟨l1, h1, h⟩ := Except.bind_eq_ok _ _ _ h
  obtain ⟨l2, h2, h⟩ := Except.bind_eq_ok _ _ _ h
  obtain ⟨l3, h3, h⟩ := Except.bind_eq_ok _ _ _ h
  obtain ⟨l4, h4, h⟩ := Except.bind_eq_ok _ _ _ h
  obtain ⟨r1, h5, h⟩ := Except.bind_eq_ok _ _ _ h
  obtain ⟨r2, h6, h⟩ := Except.bind_eq_ok _ _ _ h
  obtain ⟨l5, h7, h⟩ := Except.bind_eq_ok _ _ _ h
  obtain ⟨l6, h8, h⟩ := Except.bind_eq_ok _ _ _ h
  obtain ⟨l7, h9, h⟩ := Except.bind_eq_ok _ _ _ h
  obtain ⟨l8, h10, _⟩ := Except.bind_eq_ok _ _ _ h
  clear h
  unfold validateOptions.matchers
  simp only [h1, h2, h3, h4, h5, h6, h7, h8, h9, h10, bind, Except.bind, pure, Except.pure]
  exact ⟨_, rfl⟩

/-- Whether `validateOptions` returns does not depend on `Hashes`. -/
theorem validateOptions_set_hashes (env : Env) (o : Options) (v : Validated) (hashes : String)
    (h : validateOptions env o = .ok v) :
    ∃ v', validateOptions env { o with Hashes := hashes } = .ok v' := by
  obtain ⟨m, rs, hm, hrs, _⟩ := validateOptions_ok env o v h
  unfold validateOptions at h
  obtain ⟨_, h1, h⟩ := Except.bind_eq_ok _ _ _ h
  obtain ⟨_, h2, _⟩ := Except.bind_eq_ok _ _ _ h
  clear h
  have e1 : validateOptions.inputFiles env { o with Hashes := hashes } = .ok () := by
    unfold validateOptions.inputFiles at h1 ⊢
    exact h1
  have e2 : validateOptions.outputFormat { o with Hashes := hashes } = .ok () := by
    unfold validateOptions.outputFormat at h2 ⊢
    exact h2
  obtain ⟨m', e3⟩ := validateOptions.matchers_set_hashes env o m hashes hm
  have hres : m'.Resolvers = o.Resolvers := by
    have := (validateOptions.matchers_ok env _ m' e3).2.2.2.2.2.2.2.2
    rw [this]
  have e4 : ∃ v0, validateOptions.resolvers env { options := m' } = .ok v0 := by
    unfold validateOptions.resolvers
    simp only [hres, hrs]
    exact ⟨_, rfl⟩
  obtain ⟨v0, e4⟩ := e4
  unfold validateOptions
  simp only [e1, e2, e3, e4, bind, Except.bind, pure, Except.pure]
  exact ⟨_, rfl⟩

/-- C14: for a non-empty `Hashes`, `validateOptions` reports "Unsupported hash
type" for exactly the comma-separated entries whose lower-cased text is not
one of md5, sha1, sha256, sha512, mmh3, simhash, in their order, and for an
empty `Hashes` it reports nothing (no other step writes an error message);
`Hashes` is left as it was, and whether `validateOptions` returns does not
depend on `Hashes`. -/
theorem validateOptions_hashes_report (env : Env) (o : Options) :
    (∀ v, validateOptions env o = .ok v →
      v.options.Hashes = o.Hashes ∧
      v.log.filter (fun e => e.level == Level.error) =
        (if o.Hashes = "" then []
         else ((strings.Split o.Hashes ",").filter fun hashType =>
            !decide (strings.ToLower env.ToLower hashType ∈
              ["md5", "sha1", "sha256", "sha512", "mmh3", "simhash"])).map fun hashType =>
              (⟨Level.error, "Unsupported hash type: " ++ hashType ++ "\n"⟩ : LogEntry))) ∧
    (∀ hashes : String,
      (∃ v, validateOptions env { o with Hashes := hashes } = .ok v) ↔
        ∃ v, validateOptions env o = .ok v) := by
  refine ⟨fun v h => ?_, fun hashes => ⟨fun ⟨v, hv⟩ => ?_, fun ⟨v, hv⟩ => ?_⟩⟩
  · obtain ⟨m, rs, hm, _, hv⟩ := validateOptions_ok env o v h
    have hframe := (validateOptions.matchers_ok env o m hm).2.2.2.2.2.2.2.2
    have hh : m.Hashes = o.Hashes := by rw [hframe]
    constructor
    · rw [hv, (validateOptions.tail_frame env _).2.1]
      exact hh
    · rw [hv, validateOptions.tail_log_errors]
      have hlog : (if rs.length > 0 then
            [(⟨.debug, "Using resolvers: " ++ strings.Join rs "," ++ "\n"⟩ : LogEntry)]
          else []).filter (fun e => e.level == Level.error) = [] := by
        split <;> simp
      simp only [hlog, List.nil_append, hh, supportedHashes]
  · exact validateOptions_set_hashes env { o with Hashes := hashes } v o.Hashes hv
  · exact validateOptions_set_hashes env o v hashes hv

/-- C14 at a concrete input: `-hash "MD5,,sha1, mmh3,SimHash,crc32"` reports
the empty entry, the entry with a leading space and `crc32`, and accepts the
supported names in either letter case. -/
theorem validateOptions_hashes_report_witness :
    ∃ v, validateOptions resumeOnlyEnv
        { defaultOptions with Hashes := "MD5,,sha1, mmh3,SimHash,crc32" } = .ok v ∧
      v.options.Hashes = "MD5,,sha1, mmh3,SimHash,crc32" ∧
      v.log.filter (fun e => e.level == Level.error) =
        [⟨.error, "Unsupported hash type: \n"⟩, ⟨.error, "Unsupported hash type:  mmh3\n"⟩,
          ⟨.error, "Unsupported hash type: crc32\n"⟩] := by
  have hrun : validateOptions resumeOnlyEnv
      { defaultOptions with Hashes := "MD5,,sha1, mmh3,SimHash,crc32" } =
      .ok ⟨{ defaultOptions with Hashes := "MD5,,sha1, mmh3,SimHash,crc32" },
        [⟨.error, "Unsupported hash type: \n"⟩, ⟨.error, "Unsupported hash type:  mmh3\n"⟩,
          ⟨.error, "Unsupported hash type: crc32\n"⟩]⟩ := by
    rfl
  have key := (validateOptions_hashes_report resumeOnlyEnv
    { defaultOptions with Hashes := "MD5,,sha1, mmh3,SimHash,crc32" }).1 _ hrun
  exact ⟨_, hrun, key.1, rfl⟩

/-! ## `ParseOptions` -/

theorem ParseOptions_eq (env : Env) (cli : Options → Options) :
    ParseOptions env cli =
      match (configureResume env (ParseOptions.parsed cli)).err with
      | some err => .error (.fatal (err ++ "\n"))
      | none =>
        if (configureResume env (ParseOptions.parsed cli)).options.Version = true then
          .error (.exit 0)
        else validateOptions env (configureResume env (ParseOptions.parsed cli)).options := by
  unfold ParseOptions ParseOptions.parsed
  rfl

/-- C11: `configureResume` returns an error only when `Resume` is set,
`resume.cfg` exists and the load fails (the error is the one of the load),
and `ParseOptions` ends with a fatal error carrying exactly that error, going
on to the version and validation steps when there is none; when `Resume` is
not set `configureResume` returns nil, loads nothing and leaves `resumeCfg` a
fresh, empty, non-nil `ResumeCfg`, whatever the file system holds. -/
theorem configureResume_error_iff_load_fails (env : Env) (o : Options)
    (cli : Options → Options) :
    (∀ err, (configureResume env o).err = some err ↔
      (o.Resume = true ∧ env.FileExists "resume.cfg" = true ∧
        (env.goconfigLoad (some {}) "resume.cfg").2 = some err)) ∧
    (o.Resume = false →
      (configureResume env o).err = none ∧
      (configureResume env o).options.resumeCfg = some {} ∧
      (configureResume env o).loaded = []) ∧
    (∀ err, (configureResume env (ParseOptions.parsed cli)).err = some err →
      ParseOptions env cli = .error (.fatal (err ++ "\n"))) ∧
    ((configureResume env (ParseOptions.parsed cli)).err = none →
      ParseOptions env cli =
        if (configureResume env (ParseOptions.parsed cli)).options.Version = true then
          .error (.exit 0)
        else validateOptions env (configureResume env (ParseOptions.parsed cli)).options) ∧
    (ParseOptions.parsed cli).Resume = (cli defaultOptions).Resume := by
  refine ⟨fun err => ?_, fun hr => ?_, fun err herr => ?_, fun hnone => ?_, ?_⟩
  · cases hr : o.Resume <;> cases hf : env.FileExists "resume.cfg" <;>
      simp [configureResume, DefaultResumeFile, hr, hf]
  · simp [configureResume, hr]
  · rw [ParseOptions_eq, herr]
  · rw [ParseOptions_eq, hnone]
  · unfold ParseOptions.parsed
    simp only
    split <;> rfl

/-- C11 at concrete inputs: with an unreadable `resume.cfg`, a parse that sets
`Resume` ends `ParseOptions` with the error of the load, and with `Resume`
unset the same file system gives no error and the fresh empty checkpoint. -/
theorem configureResume_error_iff_load_fails_witness :
    ParseOptions corruptResumeEnv (fun o => { o with Resume := true }) =
      .error (.fatal "unexpected end of JSON input\n") ∧
    (configureResume corruptResumeEnv defaultOptions).err = none ∧
    (configureResume corruptResumeEnv defaultOptions).options.resumeCfg = some {} := by
  have key := configureResume_error_iff_load_fails corruptResumeEnv defaultOptions
    (fun o => { o with Resume := true })
  exact ⟨key.2.2.1 "unexpected end of JSON input" rfl, (key.2.1 rfl).1, (key.2.1 rfl).2.1⟩

theorem validateOptions_stats_frame (env : Env) (o : Options) (v : Validated)
    (h : validateOptions env o = .ok v) :
    v.options.StatsInterval = o.StatsInterval ∧ v.options.ShowStatistics = o.ShowStatistics := by
  obtain ⟨m, rs, hm, _, hv⟩ := validateOptions_ok env o v h
  have hframe := (validateOptions.matchers_ok env o m hm).2.2.2.2.2.2.2.2
  have h1 : m.StatsInterval = o.StatsInterval := by rw [hframe]
  have h2 : m.ShowStatistics = o.ShowStatistics := by rw [hframe]
  obtain ⟨_, _, f1, f2, _⟩ := validateOptions.tail_frame env
    { options := { m with Resolvers := rs }
      log := if rs.length > 0 then
          [⟨.debug, "Using resolvers: " ++ strings.Join rs "," ++ "\n"⟩]
        else [] }
  rw [← hv] at f1 f2
  exact ⟨f1.trans h1, f2.trans h2⟩

theorem configureResume_stats_frame (env : Env) (o : Options) :
    (configureResume env o).options.StatsInterval = o.StatsInterval ∧
    (configureResume env o).options.ShowStatistics = o.ShowStatistics := by
  unfold configureResume
  simp only
  split <;> exact ⟨rfl, rfl⟩

/-- The two statistics fields of the record `ParseOptions` returns, in terms
of the record the flags were parsed into. -/
theorem ParseOptions_stats (env : Env) (cli : Options → Options) (v : Validated)
    (h : ParseOptions env cli = .ok v) :
    v.options.StatsInterval = (cli defaultOptions).StatsInterval ∧
    v.options.ShowStatistics =
      ((cli defaultOptions).ShowStatistics || decide ((cli defaultOptions).StatsInterval ≠ 0)) := by
  rw [ParseOptions_eq] at h
  split at h
  · cases h
  · split at h
    · cases h
    · obtain ⟨h1, h2⟩ := validateOptions_stats_frame env _ v h
      obtain ⟨g1, g2⟩ := configureResume_stats_frame env (ParseOptions.parsed cli)
      rw [h1, h2, g1, g2]
      unfold ParseOptions.parsed
      by_cases hz : (cli defaultOptions).StatsInterval = 0
      · simp [hz]
      · simp [hz]

/-- C15: the statistics interval `ParseOptions` stores without the flag is not
the 5 of the help text. `-stats-interval` is registered with the default 0
while its help text reads "(default: 5)"; a parse that leaves every flag at
its registered default returns a record with `StatsInterval` 0 (and
`ShowStatistics` false); and no step of `ParseOptions` after the parse writes
`StatsInterval`, so the 0 is never replaced by 5. -/
theorem ParseOptions_default_statsInterval_is_zero :
    statsIntervalFlag.defValue = 0 ∧
    strings.Contains statsIntervalFlag.usage "(default: 5)" = true ∧
    defaultOptions.StatsInterval = statsIntervalFlag.defValue ∧
    (∃ v, ParseOptions resumeOnlyEnv (fun o => o) = .ok v ∧
      v.options.StatsInterval = 0 ∧ v.options.StatsInterval ≠ 5 ∧
      v.options.ShowStatistics = false) ∧
    (∀ (env : Env) (cli : Options → Options) (v : Validated),
      ParseOptions env cli = .ok v →
      v.options.StatsInterval = (cli defaultOptions).StatsInterval) := by
  have hrun : ParseOptions resumeOnlyEnv (fun o => o) =
      .ok ⟨{ defaultOptions with resumeCfg := some {} }, []⟩ := by
    rfl
  exact ⟨rfl, by decide, rfl, ⟨_, hrun, rfl, by decide, rfl⟩,
    fun env cli v h => (ParseOptions_stats env cli v h).1⟩

/-- C18: in every record `ParseOptions` returns a non-zero `StatsInterval`
comes with `ShowStatistics` true, and with a zero `StatsInterval`
`ShowStatistics` is the value the flags gave it; neither field is written
after line 373. -/
theorem ParseOptions_statsInterval_implies_showStatistics (env : Env)
    (cli : Options → Options) (v : Validated) (h : ParseOptions env cli = .ok v) :
    (v.options.StatsInterval ≠ 0 → v.options.ShowStatistics = true) ∧
    (v.options.StatsInterval = 0 →
      v.options.ShowStatistics = (cli defaultOptions).ShowStatistics) ∧
    v.options.StatsInterval = (cli defaultOptions).StatsInterval := by
  obtain ⟨h1, h2⟩ := ParseOptions_stats env cli v h
  rw [h1, h2]
  refine ⟨fun hne => by simp [hne], fun hz => by simp [hz], rfl⟩

/-- C18 at a concrete parse: a `StatsInterval` of 7 with no other flag
touched turns the statistics display on. -/
theorem ParseOptions_statsInterval_implies_showStatistics_witness :
    ∃ v, ParseOptions resumeOnlyEnv (fun o => { o with StatsInterval := 7 }) = .ok v ∧
      v.options.StatsInterval = 7 ∧ v.options.ShowStatistics = true := by
  have hrun : ParseOptions resumeOnlyEnv (fun o => { o with StatsInterval := 7 }) =
      .ok ⟨{ defaultOptions with
              resumeCfg := some {}, StatsInterval := 7, ShowStatistics := true }, []⟩ := by
    rfl
  have key := ParseOptions_statsInterval_implies_showStatistics resumeOnlyEnv
    (fun o => { o with StatsInterval := 7 }) _ hrun
  exact ⟨_, hrun, key.2.2, key.1 (by rw [key.2.2]; decide)⟩

/-- C17 at a concrete input: eight option strings of eight different lengths
end in the eight lists of those lengths, each in its own field, and a string
that does not parse ends `validateOptions` with a fatal error. -/
theorem validateOptions_lists_from_own_strings_witness :
    (∃ v, validateOptions lengthEnv
        { defaultOptions with
          OutputMatchStatusCode := "1", OutputMatchContentLength := "22",
          OutputFilterStatusCode := "333", OutputFilterContentLength := "4444",
          OutputMatchLinesCount := "55555", OutputMatchWordsCount := "666666",
          OutputFilterLinesCount := "7777777", OutputFilterWordsCount := "88888888" } = .ok v ∧
      v.options.matchStatusCode = [1] ∧ v.options.matchContentLength = [2] ∧
      v.options.filterStatusCode = [3] ∧ v.options.filterContentLength = [4] ∧
      v.options.matchLinesCount = [5] ∧ v.options.matchWordsCount = [6] ∧
      v.options.filterLinesCount = [7] ∧ v.options.filterWordsCount = [8]) ∧
    (∃ msg, validateOptions lengthEnv { defaultOptions with OutputFilterWordsCount := "bad" } =
      .error (.fatal msg)) := by
  refine ⟨⟨_, rfl, rfl, rfl, rfl, rfl, rfl, rfl, rfl, rfl⟩, ?_⟩
  exact (validateOptions_lists_from_own_strings lengthEnv
    { defaultOptions with OutputFilterWordsCount := "bad" }).2 "bad" (by simp) "bad" rfl

/-! ## `scanOptions.Clone` -/

/-- C16: `scanOptions.Clone` does not copy every field. The clone agrees with
its receiver on the forty fields the composite literal names, and its
`VHostInput`, `ExcludeCDN`, `ProbeAllIPS` and `extractRegex` are the zero
values whatever the receiver holds; a receiver with the four set has a clone
with none of them set. -/
theorem scanOptions_Clone_drops_four_fields (s : scanOptions) :
    s.Clone = { s with VHostInput := false, ExcludeCDN := false, ProbeAllIPS := false,
                       extractRegex := none } ∧
    s.Clone.VHostInput = false ∧ s.Clone.ExcludeCDN = false ∧
    s.Clone.ProbeAllIPS = false ∧ s.Clone.extractRegex = none ∧
    (scanOptions.Clone { VHostInput := true, ExcludeCDN := true, ProbeAllIPS := true,
                         extractRegex := some ⟨"a+"⟩ }).VHostInput ≠ true ∧
    scanOptions.Clone { VHostInput := true, ExcludeCDN := true, ProbeAllIPS := true,
                        extractRegex := some ⟨"a+"⟩ } = {} := by
  refine ⟨rfl, rfl, rfl, rfl, rfl, by decide, rfl⟩

end Httpx
